import Mathlib

/-!
# The farming game: campaign, crops, NDVI simulator and decision tiles

A shallow embedding of the gameplay core of the game: the `NASAData` class (week index,
money, crop health, the sixteen week records), the `DECISION_MADE` handler of `main.js`
that drives it, the growth of a `Crop`, the `NDVISimulator` and the latch of a
`DecisionTile`.

Modelling conventions.

* JavaScript numbers that only ever hold integers here (`money`, `cropHealth`,
  `cost`, `week`, tile and crop positions) are `Int`/`Nat`; the values involved are far
  below `2^53`, so double arithmetic on them is exact.
* `moisture` and the thresholds it is compared with are decimal literals; they
  are embedded as the rationals the literals denote (`0.63` is `63/100`).
  Parsing a decimal literal to a double is monotone and maps equal literals to
  equal doubles, so every comparison between two such literals has the same
  outcome on the rationals.
* The numbers that the code computes with in fractions (`growthTimer`, `ndviValue`, frame
  deltas, the broadcast value) are doubles: a rational stands for the double nearest to it,
  and every product, sum and difference is rounded to the nearest double (`toDouble`), as
  IEEE 754 arithmetic does.  `NaN` and the infinities are not represented.  Hero coordinates
  are rationals that are rounded to whole numbers at once.
* Reading a property of `undefined` throws a `TypeError` in JavaScript.  A method
  that can do so before it has changed anything returns `Option`, with `none`
  for the throw.
* `Math.min()` of no arguments is `Infinity`; `mathMin` returns `none` for it.
* Events are emitted synchronously; a function that emits returns the events next to
  the state it leaves.
-/

namespace SpaceApp

/-- One element of `weeklyData`: `{ week, date, moisture, cost }`. -/
structure WeekRecord where
  week : Nat
  date : String
  moisture : ℚ
  cost : Int
deriving DecidableEq

/-- The fields of a `NASAData` object. -/
structure NASAData where
  currentWeekIndex : Nat
  cropHealth : Int
  money : Int
  weeklyData : List WeekRecord
deriving DecidableEq

/-- The literal array assigned to `this.weeklyData` in the constructor. -/
def weeklyData : List WeekRecord :=
  [ { week := 1, date := "Jan 7", moisture := 0.75, cost := 12000 },
    { week := 2, date := "Jan 14", moisture := 0.68, cost := 15000 },
    { week := 3, date := "Jan 21", moisture := 0.55, cost := 18000 },
    { week := 4, date := "Jan 28", moisture := 0.45, cost := 22000 },
    { week := 5, date := "Feb 4", moisture := 0.72, cost := 13000 },
    { week := 6, date := "Feb 11", moisture := 0.62, cost := 16000 },
    { week := 7, date := "Feb 18", moisture := 0.50, cost := 20000 },
    { week := 8, date := "Feb 25", moisture := 0.38, cost := 25000 },
    { week := 9, date := "Mar 4", moisture := 0.70, cost := 14000 },
    { week := 10, date := "Mar 11", moisture := 0.58, cost := 17000 },
    { week := 11, date := "Mar 18", moisture := 0.48, cost := 21000 },
    { week := 12, date := "Mar 25", moisture := 0.65, cost := 15000 },
    { week := 13, date := "Apr 1", moisture := 0.60, cost := 16500 },
    { week := 14, date := "Apr 8", moisture := 0.52, cost := 19000 },
    { week := 15, date := "Apr 15", moisture := 0.67, cost := 15500 },
    { week := 16, date := "Apr 22", moisture := 0.63, cost := 15000 } ]

/-- The state built by `new NASAData()`. -/
def NASAData.new : NASAData :=
  { currentWeekIndex := 0, cropHealth := 100, money := 100000,
    weeklyData := SpaceApp.weeklyData }

/-- The method `getCurrentWeek()`: `this.weeklyData[this.currentWeekIndex]`, `none` for
`undefined`. -/
def NASAData.getCurrentWeek (s : NASAData) : Option WeekRecord :=
  s.weeklyData[s.currentWeekIndex]?

/-- The object returned by `irrigate()`: `{ success, message }` or `{ success, healthGain }`. -/
structure IrrigateResult where
  success : Bool
  message : Option String
  healthGain : Option Int
deriving DecidableEq

/-- The object returned by `skipIrrigation()`: `{ healthLoss, adequate }`. -/
structure SkipResult where
  healthLoss : Int
  adequate : Bool
deriving DecidableEq

/-- The object returned by `advanceWeek()`: `{ gameOver }` or `{ gameOver, won }`. -/
structure AdvanceResult where
  gameOver : Bool
  won : Option Bool
deriving DecidableEq

/-- The object returned by `checkGameOver()`: `{ gameOver }` or `{ gameOver, reason }`. -/
structure GameOverResult where
  gameOver : Bool
  reason : Option String
deriving DecidableEq

/-- The method `irrigate()`.  `none` is the `TypeError` of `currentWeek.cost` when there is
no current week; nothing has been assigned at that point. -/
def NASAData.irrigate (s : NASAData) : Option (NASAData × IrrigateResult) :=
  match s.getCurrentWeek with
  | none => none
  | some currentWeek =>
    if s.money < currentWeek.cost then
      some (s, { success := false, message := some "Not enough money", healthGain := none })
    else
      some ({ s with money := s.money - currentWeek.cost,
                     cropHealth := min 100 (s.cropHealth + 10) },
            { success := true, message := none, healthGain := some 10 })

/-- The method `skipIrrigation()`.  `none` is the `TypeError` of `currentWeek.moisture` when
there is no current week. -/
def NASAData.skipIrrigation (s : NASAData) : Option (NASAData × SkipResult) :=
  match s.getCurrentWeek with
  | none => none
  | some currentWeek =>
    if currentWeek.moisture ≥ 0.63 ∧ currentWeek.moisture ≤ 0.67 then
      some (s, { healthLoss := 0, adequate := true })
    else if currentWeek.moisture < 0.65 then
      some ({ s with cropHealth := max 0 (s.cropHealth - 15) },
            { healthLoss := 15, adequate := false })
    else
      some (s, { healthLoss := 0, adequate := true })

/-- The method `advanceWeek()`. -/
def NASAData.advanceWeek (s : NASAData) : NASAData × AdvanceResult :=
  let s1 := { s with currentWeekIndex := s.currentWeekIndex + 1 }
  if s1.currentWeekIndex ≥ s1.weeklyData.length then
    (s1, { gameOver := true, won := some true })
  else
    (s1, { gameOver := false, won := none })

/-- The call `Math.min(...xs)`: the least argument, `none` standing for the `Infinity`
returned when there is no argument. -/
def mathMin : List Int → Option Int
  | [] => none
  | x :: xs =>
    match mathMin xs with
    | none => some x
    | some m => some (min x m)

/-- The comparison `a < b` where `b` may be `Infinity` (`none`). -/
def ltNumber (a : Int) : Option Int → Bool
  | none => true
  | some b => decide (a < b)

/-- The method `checkGameOver()`; it assigns nothing. -/
def NASAData.checkGameOver (s : NASAData) : GameOverResult :=
  if s.cropHealth ≤ 0 then
    { gameOver := true, reason := some "crop_death" }
  else
    let remainingWeeks := s.weeklyData.drop s.currentWeekIndex
    let minCost := mathMin (remainingWeeks.map fun w => w.cost)
    if ltNumber s.money minCost ∧ (s.currentWeekIndex : Int) < (s.weeklyData.length : Int) - 1 then
      { gameOver := true, reason := some "bankruptcy" }
    else
      { gameOver := false, reason := none }

/-- The method `reset()`. -/
def NASAData.reset (s : NASAData) : NASAData :=
  { s with currentWeekIndex := 0, cropHealth := 100, money := 100000 }

/-! ## The orchestrator of `main.js` -/

/-- A `Vector2`; the positions used for tiles are whole numbers of pixels. -/
structure Vector2 where
  x : Int
  y : Int
deriving DecidableEq

/-- The gameplay fields of a `DecisionTile` (the animation fields are left out). -/
structure DecisionTile where
  position : Vector2
  decision : String
  weekData : Option WeekRecord
  hasBeenActivated : Bool
deriving DecidableEq

/-- The constructor `new DecisionTile(x, y, decision, weekData)`. -/
def DecisionTile.new (x y : Int) (decision : String) (weekData : Option WeekRecord) :
    DecisionTile :=
  { position := { x := x, y := y }, decision := decision, weekData := weekData,
    hasBeenActivated := false }

/-- The payload of a `DECISION_MADE` event: `{ decision, week }`. -/
structure DecisionMade where
  decision : String
  week : Option WeekRecord
deriving DecidableEq

/-- The module variables of `main.js` that the decision handler reads and writes. -/
structure MainState where
  nasaData : NASAData
  yesTile : Option DecisionTile
  noTile : Option DecisionTile
deriving DecidableEq

/-- The dialogs the handler can open with `alert`. -/
inductive Alert where
  | notEnoughMoney
  | farmIrrigated
  | irrigationSkipped
  | irrigationSkippedWarning
  | cropDeath
  | bankruptcy
  | youWin
deriving DecidableEq

/-- What the handler does, in program order: the calls on `nasaData`, the dialogs and
the calls of `spawnDecisionTiles`. -/
inductive Action where
  | irrigate
  | skipIrrigation
  | checkGameOver
  | advanceWeek
  | alert (a : Alert)
  | spawnDecisionTiles
deriving DecidableEq

/-- One run of the `DECISION_MADE` handler: the module state it leaves, what it did, and
whether it ended by a `TypeError` instead of returning. -/
structure HandlerRun where
  state : MainState
  trace : List Action
  threw : Bool
deriving DecidableEq

/-- The function `spawnDecisionTiles()`.  The old tiles are destroyed and replaced; `yesPos`
and `noPos` are the positions drawn by the two calls of `getRandomTilePosition`. -/
def spawnDecisionTiles (m : MainState) (yesPos noPos : Vector2) : MainState :=
  let currentWeek := m.nasaData.getCurrentWeek
  { m with yesTile := some (DecisionTile.new yesPos.x yesPos.y "YES" currentWeek),
           noTile := some (DecisionTile.new noPos.x noPos.y "NO" currentWeek) }

/-- The module state after `main.js` has been loaded: a new `NASAData` and the first call of
`spawnDecisionTiles`. -/
def MainState.new (yesPos noPos : Vector2) : MainState :=
  spawnDecisionTiles { nasaData := NASAData.new, yesTile := none, noTile := none } yesPos noPos

/-- The second half of the handler, from the comment `Check game over` to its end; `trace` is
what the first half did. -/
def checkAndAdvance (m : MainState) (trace : List Action) (yesPos noPos : Vector2) :
    HandlerRun :=
  let gameOverCheck := m.nasaData.checkGameOver
  if gameOverCheck.gameOver then
    if gameOverCheck.reason = some "crop_death" then
      { state := m, trace := trace ++ [.checkGameOver, .alert .cropDeath], threw := false }
    else if gameOverCheck.reason = some "bankruptcy" then
      { state := m, trace := trace ++ [.checkGameOver, .alert .bankruptcy], threw := false }
    else
      { state := m, trace := trace ++ [.checkGameOver], threw := false }
  else
    let advance := m.nasaData.advanceWeek
    let m1 := { m with nasaData := advance.1 }
    if advance.2.gameOver then
      { state := m1, trace := trace ++ [.checkGameOver, .advanceWeek, .alert .youWin],
        threw := false }
    else
      { state := spawnDecisionTiles m1 yesPos noPos,
        trace := trace ++ [.checkGameOver, .advanceWeek, .spawnDecisionTiles],
        threw := false }

/-- The listener registered with `events.on("DECISION_MADE", null, ...)`.  The dialogs of a
completed decision read `data.week.cost` and `data.week.moisture`, which throw when
`data.week` is `undefined`. -/
def onDecisionMade (m : MainState) (data : DecisionMade) (yesPos noPos : Vector2) :
    HandlerRun :=
  if data.decision = "YES" then
    match m.nasaData.irrigate with
    | none => { state := m, trace := [.irrigate], threw := true }
    | some (n1, result) =>
      let m1 := { m with nasaData := n1 }
      if !result.success then
        { state := spawnDecisionTiles m1 yesPos noPos,
          trace := [.irrigate, .alert .notEnoughMoney, .spawnDecisionTiles],
          threw := false }
      else
        match data.week with
        | none => { state := m1, trace := [.irrigate], threw := true }
        | some _ => checkAndAdvance m1 [.irrigate, .alert .farmIrrigated] yesPos noPos
  else
    match m.nasaData.skipIrrigation with
    | none => { state := m, trace := [.skipIrrigation], threw := true }
    | some (n1, result) =>
      let m1 := { m with nasaData := n1 }
      match data.week with
      | none => { state := m1, trace := [.skipIrrigation], threw := true }
      | some _ =>
        if result.adequate then
          checkAndAdvance m1 [.skipIrrigation, .alert .irrigationSkipped] yesPos noPos
        else
          checkAndAdvance m1 [.skipIrrigation, .alert .irrigationSkippedWarning] yesPos noPos

/-- The method `onCollideWithHero()` of a tile: it latches `hasBeenActivated` and emits
`DECISION_MADE` with the tile's decision and week. -/
def DecisionTile.onCollideWithHero (t : DecisionTile) : DecisionTile × DecisionMade :=
  ({ t with hasBeenActivated := true }, { decision := t.decision, week := t.weekData })

/-- The order of calls that the orchestration rule prescribes for a completed decision:
`first` is what applying the decision did and `n1` the campaign state it left.  The run
`r` then calls `checkGameOver` on `n1`; when that reports game over the campaign state stays
`n1` and neither `advanceWeek` nor `spawnDecisionTiles` is called; when it does not,
`advanceWeek` is called next, on `n1`. -/
def SequencedAfter (n1 : NASAData) (first : List Action) (r : HandlerRun) : Prop :=
  r.threw = false ∧
  (n1.checkGameOver.gameOver = true →
    r.state.nasaData = n1 ∧
    ∃ rest, r.trace = first ++ Action.checkGameOver :: rest ∧
      Action.advanceWeek ∉ rest ∧ Action.spawnDecisionTiles ∉ rest) ∧
  (n1.checkGameOver.gameOver = false →
    r.state.nasaData = n1.advanceWeek.1 ∧
    r.state.nasaData.currentWeekIndex = n1.currentWeekIndex + 1 ∧
    r.state.nasaData.money = n1.money ∧
    r.state.nasaData.cropHealth = n1.cropHealth ∧
    ∃ rest, r.trace = first ++ Action.checkGameOver :: Action.advanceWeek :: rest)

/-! ## Sequences of operations -/

/-- The four operations of `NASAData` that a campaign uses. -/
inductive Op where
  | irrigate
  | skipIrrigation
  | advanceWeek
  | checkGameOver
deriving DecidableEq

/-- The state of the object after one call; a call that throws has assigned nothing. -/
def NASAData.applyOp (s : NASAData) : Op → NASAData
  | .irrigate => (s.irrigate.map Prod.fst).getD s
  | .skipIrrigation => (s.skipIrrigation.map Prod.fst).getD s
  | .advanceWeek => s.advanceWeek.1
  | .checkGameOver => s

/-- The state of the object after the calls of `ops`, made in order. -/
def NASAData.applyOps (s : NASAData) (ops : List Op) : NASAData :=
  ops.foldl NASAData.applyOp s

/-- The module state after the handler has run on each event of `events` in order; every
run draws its own tile positions. -/
def MainState.handleAll (m : MainState) (events : List (DecisionMade × Vector2 × Vector2)) :
    MainState :=
  events.foldl (fun m e => (onDecisionMade m e.1 e.2.1 e.2.2).state) m

/-- A run that ended the session: it opened the crop-death, the bankruptcy or the victory
dialog. -/
def HandlerRun.terminal (r : HandlerRun) : Prop :=
  Action.alert Alert.cropDeath ∈ r.trace ∨ Action.alert Alert.bankruptcy ∈ r.trace ∨
    Action.alert Alert.youWin ∈ r.trace

/-- The events of a player who steps on the NO tile in each of the first `k` weeks; every
pair of tiles is put at the same two positions. -/
def skipWeeks (k : Nat) : List (DecisionMade × Vector2 × Vector2) :=
  (weeklyData.take k).map fun w =>
    ({ decision := "NO", week := some w }, ⟨48, 64⟩, ⟨160, 128⟩)

/-- The run of the handler on the NO decision of week 11, after ten weeks of NO decisions
from the new game. -/
def cropDeathRun : HandlerRun :=
  onDecisionMade ((MainState.new ⟨48, 64⟩ ⟨160, 128⟩).handleAll (skipWeeks 10))
    { decision := "NO", week := some ⟨11, "Mar 18", 0.48, 21000⟩ } ⟨48, 64⟩ ⟨160, 128⟩

/-! ## The operations of a campaign, `reset()` included -/

/-- The five methods of `NASAData` that assign to or read the campaign state. -/
inductive Method where
  | irrigate
  | skipIrrigation
  | advanceWeek
  | checkGameOver
  | reset
deriving DecidableEq

/-- The state of the object after one call of a method; a call that throws has assigned
nothing. -/
def NASAData.invoke (s : NASAData) : Method → NASAData
  | .irrigate => s.applyOp Op.irrigate
  | .skipIrrigation => s.applyOp Op.skipIrrigation
  | .advanceWeek => s.applyOp Op.advanceWeek
  | .checkGameOver => s.applyOp Op.checkGameOver
  | .reset => s.reset

/-- The state of the object after the calls of `ms`, made in order. -/
def NASAData.invokeAll (s : NASAData) (ms : List Method) : NASAData :=
  ms.foldl NASAData.invoke s

/-! ## Double arithmetic

JavaScript numbers are IEEE 754 doubles: 53 significant bits, exponents from `-1022` up,
results rounded to the nearest double with ties to the even significand.  `toDouble` is that
rounding on the rationals.  A result beyond the largest double, which the code turns into
`Infinity`, keeps its rounded value here; both compare alike with every finite number. -/

/-- The whole number nearest to `x`, a tie going to the even neighbour. -/
def roundHalfEven (x : ℚ) : Int :=
  if x - ⌊x⌋ < 1 / 2 then ⌊x⌋
  else if 1 / 2 < x - ⌊x⌋ then ⌊x⌋ + 1
  else if ⌊x⌋ % 2 = 0 then ⌊x⌋ else ⌊x⌋ + 1

/-- The power `2 ^ e` for a whole exponent of either sign. -/
def pow2 (e : Int) : ℚ :=
  if 0 ≤ e then ((2 ^ e.toNat : Nat) : ℚ) else 1 / ((2 ^ (-e).toNat : Nat) : ℚ)

/-- The number of halvings that bring `n` below 2, counted with `fuel` steps at most. -/
def halvings : Nat → Nat → Nat
  | 0, _ => 0
  | fuel + 1, n => if n < 2 then 0 else halvings fuel (n / 2) + 1

/-- The exponent `e` with `2 ^ e <= q < 2 ^ (e + 1)`, for `q > 0`. -/
def floorLog2 (q : ℚ) : Int :=
  if pow2 ((halvings q.num.natAbs q.num.natAbs : Int) - (halvings q.den q.den : Int)) ≤ q then
    (halvings q.num.natAbs q.num.natAbs : Int) - (halvings q.den q.den : Int)
  else
    (halvings q.num.natAbs q.num.natAbs : Int) - (halvings q.den q.den : Int) - 1

/-- The spacing of the doubles around `q`: `2 ^ (e - 52)` where `e` is the exponent of `q`,
not below the least exponent `-1022` of a normal double. -/
def doubleUlp (q : ℚ) : ℚ :=
  pow2 (max (floorLog2 |q|) (-1022) - 52)

/-- The double nearest to `q`, a tie going to the even significand (the rounding of IEEE 754
arithmetic). -/
def toDouble (q : ℚ) : ℚ :=
  if q < 0 then -(roundHalfEven (-q / doubleUlp q) * doubleUlp q)
  else roundHalfEven (q / doubleUlp q) * doubleUlp q

/-- The product `a * b` of two doubles. -/
def doubleMul (a b : ℚ) : ℚ :=
  toDouble (toDouble a * toDouble b)

/-- The sum `a + b` of two doubles. -/
def doubleAdd (a b : ℚ) : ℚ :=
  toDouble (toDouble a + toDouble b)

/-- The difference `a - b` of two doubles. -/
def doubleSub (a b : ℚ) : ℚ :=
  toDouble (toDouble a - toDouble b)

/-! ## Crops (`objects/Crop/crop.js`)

The numbers of a crop (`growthTimer`, `ndviValue`, the frame `delta`) are doubles.  A
rational in such a place stands for the double nearest to it (`0.3` for the double that the
literal `0.3` denotes), and `Crop.step` rounds after every operation, as the code does.
`delta` is an elapsed time, finite and not negative; `NaN` and the infinities are not
represented.  The sprite and its frame are presentation and are left out. -/

/-- The keys of `cropData`.  The constructor reads `cropData[cropType].frames` and throws for
any other name, so every `Crop` has one of these types. -/
inductive CropType where
  | wheat
  | corn
  | tomato
  | carrot
deriving DecidableEq

/-- The gameplay fields of a `Crop`. -/
structure Crop where
  position : Vector2
  cropType : CropType
  growthStage : Nat
  growthTimer : ℚ
  ndviValue : ℚ
  isHarvestable : Bool
deriving DecidableEq

/-- The field `maxGrowthStage`, assigned once in the constructor. -/
def Crop.maxGrowthStage : Nat := 5

/-- The field `growthInterval`, assigned once in the constructor. -/
def Crop.growthInterval : ℚ := 3000

/-- The constructor `new Crop(x, y, cropType)`. -/
def Crop.new (x y : Int) (cropType : CropType) : Crop :=
  { position := { x := x, y := y }, cropType := cropType, growthStage := 0,
    growthTimer := 0, ndviValue := 0.3, isHarvestable := false }

/-- The payload of an `NDVI_UPDATE` event, as far as a crop reads it: `{ value, position }`. -/
structure NdviUpdate where
  value : ℚ
  position : Vector2
deriving DecidableEq

/-- The payload of a `CROP_GROWTH` event: `{ position, stage, type, ndvi }`. -/
structure CropGrowth where
  position : Vector2
  stage : Nat
  type : CropType
  ndvi : ℚ
deriving DecidableEq

/-- The test `Math.sqrt(s) < r` for whole numbers `s` and `r >= 0`: the square root is
increasing, so it holds exactly when `s < r * r`. -/
def sqrtLt (s r : Int) : Bool :=
  decide (s < r * r)

/-- The method `updateNDVI(data)`. -/
def Crop.updateNDVI (c : Crop) (data : NdviUpdate) : Crop :=
  let distanceSquared :=
    (data.position.x - c.position.x) ^ 2 + (data.position.y - c.position.y) ^ 2
  if sqrtLt distanceSquared 50 then
    { c with ndviValue := data.value }
  else
    c

/-- The method `step(delta, root)`: the crop it leaves and the `CROP_GROWTH` events it
emits. -/
def Crop.step (c : Crop) (delta : ℚ) : Crop × List CropGrowth :=
  if c.growthStage ≥ Crop.maxGrowthStage then
    ({ c with isHarvestable := true }, [])
  else
    let ndviMultiplier := max 0.5 (min 2.0 (doubleMul c.ndviValue 2))
    let growthTimer := doubleAdd c.growthTimer (doubleMul delta ndviMultiplier)
    if growthTimer ≥ Crop.growthInterval then
      let growthStage := c.growthStage + 1
      let growthStage :=
        if growthStage > Crop.maxGrowthStage then Crop.maxGrowthStage else growthStage
      ({ c with growthTimer := 0, growthStage := growthStage },
        [{ position := c.position, stage := growthStage, type := c.cropType,
           ndvi := c.ndviValue }])
    else
      ({ c with growthTimer := growthTimer }, [])

/-- What can happen to a crop between its construction and its harvest: a frame step or an
`NDVI_UPDATE` event. -/
inductive CropOp where
  | step (delta : ℚ)
  | ndviUpdate (data : NdviUpdate)
deriving DecidableEq

/-- The crop after one operation. -/
def Crop.applyOp (c : Crop) : CropOp → Crop
  | .step delta => (c.step delta).1
  | .ndviUpdate data => c.updateNDVI data

/-- The crop after the operations of `ops`, in order. -/
def Crop.applyOps (c : Crop) (ops : List CropOp) : Crop :=
  ops.foldl Crop.applyOp c

/-! ## The NDVI simulator (`helpers/NDVISimulator.js`) -/

/-- The kinds of value that reading a property of the object `this.conditions` can give. -/
inductive JsValue where
  | number (q : ℚ)
  | function
  | object
  | undefined
deriving DecidableEq

/-- The truth value JavaScript gives a value in the test of an `if`. -/
def JsValue.truthy : JsValue → Bool
  | .number q => decide (q ≠ 0)
  | .function => true
  | .object => true
  | .undefined => false

/-- The names of the methods that every object literal inherits from `Object.prototype`. -/
def objectPrototypeMethods : List String :=
  ["constructor", "hasOwnProperty", "isPrototypeOf", "propertyIsEnumerable",
   "toLocaleString", "toString", "valueOf", "__defineGetter__", "__defineSetter__",
   "__lookupGetter__", "__lookupSetter__"]

/-- The gameplay fields of an `NDVISimulator`; `conditions` and `updateInterval` are assigned
once in the constructor. -/
structure NDVISimulator where
  timer : ℚ
  currentCondition : String
deriving DecidableEq

/-- The constructor `new NDVISimulator()`. -/
def NDVISimulator.new : NDVISimulator :=
  { timer := 0, currentCondition := "good" }

/-- The property read `this.conditions[key]` on the object literal of the constructor: its
four own properties, then the properties it inherits from `Object.prototype` (the methods,
and the accessor `__proto__`, which gives the prototype object), else `undefined`. -/
def NDVISimulator.conditions (key : String) : JsValue :=
  if key = "optimal" then .number 0.7
  else if key = "good" then .number 0.55
  else if key = "stressed" then .number 0.35
  else if key = "poor" then .number 0.2
  else if key = "__proto__" then .object
  else if key ∈ objectPrototypeMethods then .function
  else .undefined

/-- The method `setCondition(condition)`. -/
def NDVISimulator.setCondition (sim : NDVISimulator) (condition : String) : NDVISimulator :=
  if (NDVISimulator.conditions condition).truthy then
    { sim with currentCondition := condition }
  else
    sim

/-- The method `broadcastNDVI()`: the `NDVI_UPDATE` payload it emits, `random` being the value
of `Math.random()`.  When `conditions[currentCondition]` is not a number the value sent is
`NaN`, which has no rational: `none`. -/
def NDVISimulator.broadcastNDVI (sim : NDVISimulator) (random : ℚ) : Option NdviUpdate :=
  match NDVISimulator.conditions sim.currentCondition with
  | .number ndviValue =>
    let variation := doubleMul (doubleSub random 0.5) 0.1
    let finalNDVI := max 0 (min 1 (doubleAdd ndviValue variation))
    some { value := finalNDVI, position := { x := 0, y := 0 } }
  | _ => none

/-! ## Decision tiles and the hero (`DecisionTile.js`) -/

/-- The payload of a `HERO_POSITION` event: `{ x, y }`. -/
structure HeroPosition where
  x : ℚ
  y : ℚ
deriving DecidableEq

/-- The call `Math.round(x)`: the nearest whole number, halves rounded up. -/
def mathRound (x : ℚ) : Int :=
  ⌊x + 1 / 2⌋

/-- The listener a tile registers for `HERO_POSITION` in `ready()`: the tile it leaves and
the `DECISION_MADE` events it emits.  The flag `isHovered` is a display matter and is left
out. -/
def DecisionTile.onHeroPosition (t : DecisionTile) (pos : HeroPosition) :
    DecisionTile × List DecisionMade :=
  let roundedHeroX := mathRound pos.x
  let roundedHeroY := mathRound pos.y
  if roundedHeroX = t.position.x ∧ roundedHeroY = t.position.y ∧ !t.hasBeenActivated then
    ((t.onCollideWithHero).1, [(t.onCollideWithHero).2])
  else
    (t, [])

/-- The tile after the broadcasts of `ps`, in order, and all the events it emitted. -/
def DecisionTile.onHeroPositions (t : DecisionTile) :
    List HeroPosition → DecisionTile × List DecisionMade
  | [] => (t, [])
  | p :: ps =>
    (((t.onHeroPosition p).1.onHeroPositions ps).1,
      (t.onHeroPosition p).2 ++ ((t.onHeroPosition p).1.onHeroPositions ps).2)

/-! ## Playing a campaign -/

instance HandlerRun.decidableTerminal (r : HandlerRun) : Decidable r.terminal :=
  inferInstanceAs (Decidable (Action.alert Alert.cropDeath ∈ r.trace ∨
    Action.alert Alert.bankruptcy ∈ r.trace ∨ Action.alert Alert.youWin ∈ r.trace))

/-- The hero steps on the YES tile (for the decision `"YES"`) or on the NO tile of the scene:
the tile latches, emits its event, and the handler runs.  `none` when there is no such tile
or it has been activated before. -/
def MainState.stepOnTile (m : MainState) (decision : String) (yesPos noPos : Vector2) :
    Option HandlerRun :=
  if decision = "YES" then
    match m.yesTile with
    | none => none
    | some t =>
      if t.hasBeenActivated then none
      else
        some (onDecisionMade { m with yesTile := some (t.onCollideWithHero).1 }
          (t.onCollideWithHero).2 yesPos noPos)
  else
    match m.noTile with
    | none => none
    | some t =>
      if t.hasBeenActivated then none
      else
        some (onDecisionMade { m with noTile := some (t.onCollideWithHero).1 }
          (t.onCollideWithHero).2 yesPos noPos)

/-- The runs of the handler for a player who takes `decisions` in order, up to and including
the first run that ends the session; every pair of tiles is put at `yesPos` and `noPos`. -/
def MainState.play (m : MainState) (yesPos noPos : Vector2) : List String → List HandlerRun
  | [] => []
  | d :: ds =>
    match m.stepOnTile d yesPos noPos with
    | none => []
    | some r => if r.terminal then [r] else r :: r.state.play yesPos noPos ds

/-- The growth speed as the specification words it, by cases: `clamp(2 * ndviValue, 0.5, 2.0)`
is half speed up to `ndviValue = 0.25`, double speed from `ndviValue = 1.0` on, and the
double `2 * ndviValue` in between. -/
def ndviSpeed (ndviValue : ℚ) : ℚ :=
  if ndviValue ≤ 0.25 then 0.5 else if 1 ≤ ndviValue then 2 else doubleMul ndviValue 2

/-! ## Helper lemmas -/

theorem getCurrentWeek_isSome_iff (s : NASAData) :
    s.getCurrentWeek.isSome = true ↔ s.currentWeekIndex < s.weeklyData.length := by
  unfold NASAData.getCurrentWeek
  rcases h : s.weeklyData[s.currentWeekIndex]? with _ | w
  · simpa using List.getElem?_eq_none_iff.mp h
  · have := (List.getElem?_eq_some_iff.mp h).1
    simpa using this

theorem getCurrentWeek_eq_none_iff (s : NASAData) :
    s.getCurrentWeek = none ↔ s.weeklyData.length ≤ s.currentWeekIndex := by
  unfold NASAData.getCurrentWeek
  exact List.getElem?_eq_none_iff

theorem mathMin_least (l : List Int) (hl : l ≠ []) :
    ∃ m, mathMin l = some m ∧ m ∈ l ∧ ∀ x ∈ l, m ≤ x := by
  induction l with
  | nil => exact absurd rfl hl
  | cons a t ih =>
    rcases t with _ | ⟨b, t⟩
    · exact ⟨a, by simp [mathMin], by simp, by simp⟩
    · obtain ⟨m, hm, hmem, hle⟩ := ih (by simp)
      refine ⟨min a m, ?_, ?_, ?_⟩
      · rw [mathMin, hm]
      · rcases min_choice a m with h | h
        · rw [h]; exact List.mem_cons_self _ _
        · rw [h]; exact List.mem_cons_of_mem _ hmem
      · intro x hx
        rcases List.mem_cons.mp hx with rfl | hx
        · exact min_le_left _ _
        · exact le_trans (min_le_right _ _) (hle x hx)

theorem advanceWeek_fst (s : NASAData) :
    s.advanceWeek.1 = { s with currentWeekIndex := s.currentWeekIndex + 1 } := by
  simp only [NASAData.advanceWeek]
  split <;> rfl

theorem skipIrrigation_cases (s : NASAData) (w : WeekRecord)
    (hw : s.getCurrentWeek = some w) :
    ((0.63 ≤ w.moisture ∧ w.moisture ≤ 0.67) →
      s.skipIrrigation = some (s, { healthLoss := 0, adequate := true })) ∧
    (¬ (0.63 ≤ w.moisture ∧ w.moisture ≤ 0.67) → w.moisture < 0.65 →
      s.skipIrrigation = some ({ s with cropHealth := max 0 (s.cropHealth - 15) },
                               { healthLoss := 15, adequate := false })) ∧
    (¬ (0.63 ≤ w.moisture ∧ w.moisture ≤ 0.67) → ¬ w.moisture < 0.65 →
      s.skipIrrigation = some (s, { healthLoss := 0, adequate := true })) ∧
    (∀ s1 r, s.skipIrrigation = some (s1, r) →
      s1.money = s.money ∧ s1.currentWeekIndex = s.currentWeekIndex ∧
      s1.weeklyData = s.weeklyData) := by
  have band : (0.63 ≤ w.moisture ∧ w.moisture ≤ 0.67) →
      s.skipIrrigation = some (s, { healthLoss := 0, adequate := true }) := by
    intro hb
    simp [NASAData.skipIrrigation, hw, hb]
  have low : ¬ (0.63 ≤ w.moisture ∧ w.moisture ≤ 0.67) → w.moisture < 0.65 →
      s.skipIrrigation = some ({ s with cropHealth := max 0 (s.cropHealth - 15) },
                               { healthLoss := 15, adequate := false }) := by
    intro hb hl
    simp only [NASAData.skipIrrigation, hw, ge_iff_le, if_neg hb, if_pos hl]
  have high : ¬ (0.63 ≤ w.moisture ∧ w.moisture ≤ 0.67) → ¬ w.moisture < 0.65 →
      s.skipIrrigation = some (s, { healthLoss := 0, adequate := true }) := by
    intro hb hl
    simp only [NASAData.skipIrrigation, hw, ge_iff_le, if_neg hb, if_neg hl]
  refine ⟨band, low, high, ?_⟩
  intro s1 r h
  by_cases hb : 0.63 ≤ w.moisture ∧ w.moisture ≤ 0.67
  · rw [band hb] at h
    cases h
    exact ⟨rfl, rfl, rfl⟩
  · by_cases hl : w.moisture < 0.65
    · rw [low hb hl] at h
      cases h
      exact ⟨rfl, rfl, rfl⟩
    · rw [high hb hl] at h
      cases h
      exact ⟨rfl, rfl, rfl⟩

theorem irrigate_frame (s s1 : NASAData) (r : IrrigateResult)
    (h : s.irrigate = some (s1, r)) :
    s1.currentWeekIndex = s.currentWeekIndex ∧ s1.weeklyData = s.weeklyData ∧
      s.currentWeekIndex < s.weeklyData.length := by
  have hsome : s.getCurrentWeek.isSome = true := by
    rcases hw : s.getCurrentWeek with _ | w
    · simp [NASAData.irrigate, hw] at h
    · rfl
  have hlt := (getCurrentWeek_isSome_iff s).mp hsome
  obtain ⟨w, hw⟩ := Option.isSome_iff_exists.mp hsome
  simp only [NASAData.irrigate, hw] at h
  split_ifs at h <;> cases h <;> exact ⟨rfl, rfl, hlt⟩

theorem skipIrrigation_frame (s s1 : NASAData) (r : SkipResult)
    (h : s.skipIrrigation = some (s1, r)) :
    s1.currentWeekIndex = s.currentWeekIndex ∧ s1.weeklyData = s.weeklyData ∧
      s.currentWeekIndex < s.weeklyData.length := by
  have hsome : s.getCurrentWeek.isSome = true := by
    rcases hw : s.getCurrentWeek with _ | w
    · simp [NASAData.skipIrrigation, hw] at h
    · rfl
  have hlt := (getCurrentWeek_isSome_iff s).mp hsome
  obtain ⟨w, hw⟩ := Option.isSome_iff_exists.mp hsome
  have hf := (skipIrrigation_cases s w hw).2.2.2 s1 r h
  exact ⟨hf.2.1, hf.2.2, hlt⟩

theorem applyOp_frame (s : NASAData) (op : Op) :
    (s.applyOp op).weeklyData = s.weeklyData ∧
      (s.applyOp op).currentWeekIndex =
        s.currentWeekIndex + (if op = Op.advanceWeek then 1 else 0) := by
  cases op
  · rcases h : s.irrigate with _ | ⟨s1, r⟩
    · simp [NASAData.applyOp, h]
    · have hf := irrigate_frame s s1 r h
      simp [NASAData.applyOp, h, hf.1, hf.2.1]
  · rcases h : s.skipIrrigation with _ | ⟨s1, r⟩
    · simp [NASAData.applyOp, h]
    · have hf := skipIrrigation_frame s s1 r h
      simp [NASAData.applyOp, h, hf.1, hf.2.1]
  · simp [NASAData.applyOp, advanceWeek_fst]
  · simp [NASAData.applyOp]

theorem applyOps_index (ops : List Op) (s : NASAData) :
    (s.applyOps ops).currentWeekIndex = s.currentWeekIndex + ops.count Op.advanceWeek := by
  induction ops generalizing s with
  | nil => simp [NASAData.applyOps]
  | cons op t ih =>
    have hstep : s.applyOps (op :: t) = (s.applyOp op).applyOps t := rfl
    rw [hstep, ih, (applyOp_frame s op).2]
    cases op <;> simp [List.count_cons]
    omega

/-! ## The operations of `NASAData` -/

/-- C1: in a state that has a current week (for the sixteen records: `weekIndex` in 0..15)
and whose money covers that week's cost, `irrigate()` returns success with `healthGain` 10,
sets `money` to `money - cost` and `cropHealth` to `min(100, cropHealth + 10)`, and leaves
`weekIndex` (and the week records) as they were. -/
theorem irrigate_enough_money (s : NASAData) (w : WeekRecord)
    (hw : s.getCurrentWeek = some w) (hm : w.cost ≤ s.money) :
    ∃ s1 r, s.irrigate = some (s1, r) ∧
      r.success = true ∧ r.healthGain = some 10 ∧
      s1.money = s.money - w.cost ∧
      s1.cropHealth = min 100 (s.cropHealth + 10) ∧
      s1.currentWeekIndex = s.currentWeekIndex ∧
      s1.weeklyData = s.weeklyData := by
  have hlt : ¬ s.money < w.cost := not_lt.mpr hm
  have hrun : s.irrigate =
      some ({ s with money := s.money - w.cost, cropHealth := min 100 (s.cropHealth + 10) },
            { success := true, message := none, healthGain := some 10 }) := by
    simp [NASAData.irrigate, hw, hlt]
  exact ⟨_, _, hrun, rfl, rfl, rfl, rfl, rfl, rfl⟩

theorem irrigate_enough_money_witness :
    NASAData.new.getCurrentWeek = some (⟨1, "Jan 7", 0.75, 12000⟩ : WeekRecord) ∧
    (12000 : Int) ≤ NASAData.new.money ∧
    ∃ s1 r, NASAData.new.irrigate = some (s1, r) ∧
      r.success = true ∧ r.healthGain = some 10 ∧
      s1.money = NASAData.new.money - 12000 ∧
      s1.cropHealth = min 100 (NASAData.new.cropHealth + 10) ∧
      s1.currentWeekIndex = NASAData.new.currentWeekIndex ∧
      s1.weeklyData = NASAData.new.weeklyData :=
  ⟨rfl, by decide,
    irrigate_enough_money NASAData.new ⟨1, "Jan 7", 0.75, 12000⟩ rfl (by decide)⟩

/-- C2: in a state that has a current week (for the sixteen records: `weekIndex` in 0..15)
and whose money is below that week's cost, `irrigate()` reports `success = false` and the
state it leaves is the state it found: `money`, `cropHealth` and `weekIndex` are unchanged. -/
theorem irrigate_not_enough_money (s : NASAData) (w : WeekRecord)
    (hw : s.getCurrentWeek = some w) (hm : s.money < w.cost) :
    ∃ r, s.irrigate = some (s, r) ∧ r.success = false ∧ r.healthGain = none := by
  have hrun : s.irrigate =
      some (s, { success := false, message := some "Not enough money", healthGain := none }) := by
    simp [NASAData.irrigate, hw, hm]
  exact ⟨_, hrun, rfl, rfl⟩

theorem irrigate_not_enough_money_witness :
    ({ NASAData.new with money := 5000 } : NASAData).getCurrentWeek =
      some (⟨1, "Jan 7", 0.75, 12000⟩ : WeekRecord) ∧
    ∃ r, ({ NASAData.new with money := 5000 } : NASAData).irrigate =
        some ({ NASAData.new with money := 5000 }, r) ∧
      r.success = false ∧ r.healthGain = none :=
  ⟨rfl, irrigate_not_enough_money { NASAData.new with money := 5000 }
    ⟨1, "Jan 7", 0.75, 12000⟩ rfl (by decide)⟩

/-- C3: `skipIrrigation()` tests the current week's moisture `m` in this order: inside the
band `0.63 <= m <= 0.67` there is no penalty; otherwise, below `0.65`, `cropHealth` becomes
`max(0, cropHealth - 15)` and the result is `healthLoss` 15, not adequate; otherwise there
is no penalty.  So `m = 0.65` and `m = 0.90` give no penalty and `m = 0.50` gives the
penalty; `money` and `weekIndex` are never changed. -/
theorem skipIrrigation_order (s : NASAData) (w : WeekRecord) (hw : s.getCurrentWeek = some w) :
    ((0.63 ≤ w.moisture ∧ w.moisture ≤ 0.67) →
      s.skipIrrigation = some (s, { healthLoss := 0, adequate := true })) ∧
    (¬ (0.63 ≤ w.moisture ∧ w.moisture ≤ 0.67) → w.moisture < 0.65 →
      s.skipIrrigation = some ({ s with cropHealth := max 0 (s.cropHealth - 15) },
                               { healthLoss := 15, adequate := false })) ∧
    (¬ (0.63 ≤ w.moisture ∧ w.moisture ≤ 0.67) → ¬ w.moisture < 0.65 →
      s.skipIrrigation = some (s, { healthLoss := 0, adequate := true })) ∧
    (w.moisture = 0.65 → s.skipIrrigation = some (s, { healthLoss := 0, adequate := true })) ∧
    (w.moisture = 0.50 →
      s.skipIrrigation = some ({ s with cropHealth := max 0 (s.cropHealth - 15) },
                               { healthLoss := 15, adequate := false })) ∧
    (w.moisture = 0.90 → s.skipIrrigation = some (s, { healthLoss := 0, adequate := true })) ∧
    (∀ s1 r, s.skipIrrigation = some (s1, r) →
      s1.money = s.money ∧ s1.currentWeekIndex = s.currentWeekIndex) := by
  obtain ⟨band, low, high, frame⟩ := skipIrrigation_cases s w hw
  refine ⟨band, low, high, ?_, ?_, ?_, ?_⟩
  · intro h
    exact band (by rw [h]; norm_num)
  · intro h
    exact low (by rw [h]; norm_num) (by rw [h]; norm_num)
  · intro h
    exact high (by rw [h]; norm_num) (by rw [h]; norm_num)
  · intro s1 r h
    exact ⟨(frame s1 r h).1, (frame s1 r h).2.1⟩

theorem skipIrrigation_order_witness :
    ({ NASAData.new with currentWeekIndex := 6 } : NASAData).getCurrentWeek =
      some (⟨7, "Feb 18", 0.50, 20000⟩ : WeekRecord) ∧
    ({ NASAData.new with currentWeekIndex := 6 } : NASAData).skipIrrigation =
      some ({ NASAData.new with currentWeekIndex := 6, cropHealth := 85 },
            { healthLoss := 15, adequate := false }) :=
  ⟨rfl, (skipIrrigation_order { NASAData.new with currentWeekIndex := 6 }
    ⟨7, "Feb 18", 0.50, 20000⟩ rfl).2.2.2.2.1 rfl⟩

/-- C4: whenever `cropHealth <= 0`, `checkGameOver()` returns game over with reason
`crop_death`, whatever `money`, `weekIndex` and the week records are; the bankruptcy test
is not reached. -/
theorem checkGameOver_crop_death (s : NASAData) (h : s.cropHealth ≤ 0) :
    s.checkGameOver = { gameOver := true, reason := some "crop_death" } := by
  simp [NASAData.checkGameOver, h]

theorem checkGameOver_crop_death_witness :
    ({ NASAData.new with cropHealth := 0, money := 0 } : NASAData).cropHealth ≤ 0 ∧
    ({ NASAData.new with cropHealth := 0, money := 0 } : NASAData).checkGameOver =
      { gameOver := true, reason := some "crop_death" } ∧
    ({ NASAData.new with cropHealth := 1, money := 0 } : NASAData).checkGameOver =
      { gameOver := true, reason := some "bankruptcy" } :=
  ⟨by decide,
    checkGameOver_crop_death { NASAData.new with cropHealth := 0, money := 0 } (by decide),
    by decide⟩

/-- C5: with `cropHealth > 0`, sixteen week records and `weekIndex` in 0..15, let `minCost`
be the least cost among the records from the current week on.  `checkGameOver()` returns
bankruptcy exactly when `money < minCost` and `weekIndex < 15`, and returns the ongoing
result otherwise; in the final week it returns the ongoing result for every `money`. -/
theorem checkGameOver_bankruptcy_iff (s : NASAData) (hh : 0 < s.cropHealth)
    (hlen : s.weeklyData.length = 16) (hi : s.currentWeekIndex < 16) :
    ∃ minCost : Int,
      (minCost ∈ (s.weeklyData.drop s.currentWeekIndex).map (fun w => w.cost) ∧
        ∀ c ∈ (s.weeklyData.drop s.currentWeekIndex).map (fun w => w.cost), minCost ≤ c) ∧
      (s.checkGameOver = { gameOver := true, reason := some "bankruptcy" } ↔
        (s.money < minCost ∧ s.currentWeekIndex < 15)) ∧
      (¬ (s.money < minCost ∧ s.currentWeekIndex < 15) →
        s.checkGameOver = { gameOver := false, reason := none }) ∧
      (s.currentWeekIndex = 15 → s.checkGameOver = { gameOver := false, reason := none }) := by
  have hne : (s.weeklyData.drop s.currentWeekIndex).map (fun w => w.cost) ≠ [] := by
    intro h
    have := congrArg List.length h
    simp [hlen] at this
    omega
  obtain ⟨m, hm, hmem, hle⟩ := mathMin_least _ hne
  have hnh : ¬ s.cropHealth ≤ 0 := not_le.mpr hh
  have hfin : ((s.currentWeekIndex : Int) < (s.weeklyData.length : Int) - 1) ↔
      s.currentWeekIndex < 15 := by
    rw [hlen]; omega
  have hbank : (s.money < m ∧ s.currentWeekIndex < 15) →
      s.checkGameOver = { gameOver := true, reason := some "bankruptcy" } := by
    intro hb
    simp only [NASAData.checkGameOver, if_neg hnh, hm, ltNumber, decide_eq_true_eq, hfin,
      if_pos hb]
  have hong : ¬ (s.money < m ∧ s.currentWeekIndex < 15) →
      s.checkGameOver = { gameOver := false, reason := none } := by
    intro hb
    simp only [NASAData.checkGameOver, if_neg hnh, hm, ltNumber, decide_eq_true_eq, hfin,
      if_neg hb]
  refine ⟨m, ⟨hmem, hle⟩, ⟨?_, hbank⟩, hong, ?_⟩
  · intro h
    by_contra hb
    rw [hong hb] at h
    exact absurd h (by decide)
  · intro h15
    exact hong (by omega)

theorem checkGameOver_bankruptcy_iff_witness :
    ∃ minCost : Int,
      (minCost ∈ (({ NASAData.new with money := 11000 } : NASAData).weeklyData.drop
          ({ NASAData.new with money := 11000 } : NASAData).currentWeekIndex).map
            (fun w => w.cost) ∧
        ∀ c ∈ (({ NASAData.new with money := 11000 } : NASAData).weeklyData.drop
          ({ NASAData.new with money := 11000 } : NASAData).currentWeekIndex).map
            (fun w => w.cost), minCost ≤ c) ∧
      (({ NASAData.new with money := 11000 } : NASAData).checkGameOver =
          { gameOver := true, reason := some "bankruptcy" } ↔
        (({ NASAData.new with money := 11000 } : NASAData).money < minCost ∧
          ({ NASAData.new with money := 11000 } : NASAData).currentWeekIndex < 15)) ∧
      (¬ (({ NASAData.new with money := 11000 } : NASAData).money < minCost ∧
          ({ NASAData.new with money := 11000 } : NASAData).currentWeekIndex < 15) →
        ({ NASAData.new with money := 11000 } : NASAData).checkGameOver =
          { gameOver := false, reason := none }) ∧
      (({ NASAData.new with money := 11000 } : NASAData).currentWeekIndex = 15 →
        ({ NASAData.new with money := 11000 } : NASAData).checkGameOver =
          { gameOver := false, reason := none }) :=
  checkGameOver_bankruptcy_iff { NASAData.new with money := 11000 } (by decide) rfl (by decide)

/-- C6: `advanceWeek()` adds exactly 1 to `weekIndex` and touches neither `money` nor
`cropHealth`; called sixteen times on a new `NASAData`, it returns `gameOver = false` on
each of the first fifteen calls and `{ gameOver: true, won: true }` on the sixteenth. -/
theorem advanceWeek_sixteen_times :
    (∀ s : NASAData,
      s.advanceWeek.1 = { s with currentWeekIndex := s.currentWeekIndex + 1 }) ∧
    (∀ k : Fin 15,
      ((NASAData.new.applyOps (List.replicate k.val Op.advanceWeek)).advanceWeek).2 =
        { gameOver := false, won := none }) ∧
    ((NASAData.new.applyOps (List.replicate 15 Op.advanceWeek)).advanceWeek).2 =
      { gameOver := true, won := some true } := by
  refine ⟨?_, ?_, ?_⟩
  · exact advanceWeek_fst
  · decide
  · decide

/-! ## The `DECISION_MADE` handler -/

theorem checkAndAdvance_over (m : MainState) (first : List Action) (yesPos noPos : Vector2)
    (h : m.nasaData.checkGameOver.gameOver = true) :
    ∃ rest, checkAndAdvance m first yesPos noPos =
        { state := m, trace := first ++ Action.checkGameOver :: rest, threw := false } ∧
      Action.advanceWeek ∉ rest ∧ Action.spawnDecisionTiles ∉ rest := by
  simp only [checkAndAdvance, h, if_true]
  split_ifs
  · exact ⟨[Action.alert Alert.cropDeath], rfl, by decide, by decide⟩
  · exact ⟨[Action.alert Alert.bankruptcy], rfl, by decide, by decide⟩
  · exact ⟨[], rfl, by decide, by decide⟩

theorem checkAndAdvance_ongoing (m : MainState) (first : List Action) (yesPos noPos : Vector2)
    (h : m.nasaData.checkGameOver.gameOver = false) :
    ∃ rest, (checkAndAdvance m first yesPos noPos).trace =
        first ++ Action.checkGameOver :: Action.advanceWeek :: rest ∧
      (checkAndAdvance m first yesPos noPos).state.nasaData = m.nasaData.advanceWeek.1 ∧
      (checkAndAdvance m first yesPos noPos).threw = false := by
  simp only [checkAndAdvance, h, Bool.false_eq_true, if_false]
  split_ifs
  · exact ⟨[Action.alert Alert.youWin], rfl, rfl, rfl⟩
  · exact ⟨[Action.spawnDecisionTiles], rfl, rfl, rfl⟩

theorem checkAndAdvance_sequenced (m : MainState) (first : List Action) (yesPos noPos : Vector2) :
    SequencedAfter m.nasaData first (checkAndAdvance m first yesPos noPos) := by
  refine ⟨?_, ?_, ?_⟩
  · rcases hg : m.nasaData.checkGameOver.gameOver with _ | _
    · exact (checkAndAdvance_ongoing m first yesPos noPos hg).choose_spec.2.2
    · obtain ⟨rest, hrun, -, -⟩ := checkAndAdvance_over m first yesPos noPos hg
      rw [hrun]
  · intro hg
    obtain ⟨rest, hrun, h1, h2⟩ := checkAndAdvance_over m first yesPos noPos hg
    rw [hrun]
    exact ⟨rfl, rest, rfl, h1, h2⟩
  · intro hg
    obtain ⟨rest, htr, hst, -⟩ := checkAndAdvance_ongoing m first yesPos noPos hg
    rw [hst, advanceWeek_fst]
    exact ⟨rfl, rfl, rfl, rfl, rest, htr⟩

/-- C7: in a state with a current week, the handler of a tile's `DECISION_MADE` event first
applies the decision (`irrigate()` for YES when the money covers the cost, `skipIrrigation()`
otherwise), keeping `weekIndex`; it then calls `checkGameOver` on that state and calls
`advanceWeek` only when the check does not report game over, so `weekIndex` grows by exactly 1
for a completed decision and by 0 when the game is over.  From the new game a YES decision
leaves `money = 88000`, `cropHealth = 100`, week 2 current, and two new tiles for week 2. -/
theorem onDecisionMade_sequence (m : MainState) (data : DecisionMade) (w wk : WeekRecord)
    (yesPos noPos : Vector2)
    (hw : m.nasaData.getCurrentWeek = some w) (hwk : data.week = some wk) :
    (data.decision = "YES" → w.cost ≤ m.nasaData.money →
      ∃ n1 r, m.nasaData.irrigate = some (n1, r) ∧ r.success = true ∧
        n1.currentWeekIndex = m.nasaData.currentWeekIndex ∧
        SequencedAfter n1 [Action.irrigate, Action.alert Alert.farmIrrigated]
          (onDecisionMade m data yesPos noPos)) ∧
    (data.decision ≠ "YES" →
      ∃ n1 r a, m.nasaData.skipIrrigation = some (n1, r) ∧
        n1.currentWeekIndex = m.nasaData.currentWeekIndex ∧
        SequencedAfter n1 [Action.skipIrrigation, Action.alert a]
          (onDecisionMade m data yesPos noPos)) ∧
    (∀ p q p1 q1 : Vector2,
      (onDecisionMade (MainState.new p q)
          { decision := "YES", week := some ⟨1, "Jan 7", 0.75, 12000⟩ } p1 q1).state =
        { nasaData := { currentWeekIndex := 1, cropHealth := 100, money := 88000,
                        weeklyData := weeklyData },
          yesTile := some (DecisionTile.new p1.x p1.y "YES"
            (some ⟨2, "Jan 14", 0.68, 15000⟩)),
          noTile := some (DecisionTile.new q1.x q1.y "NO"
            (some ⟨2, "Jan 14", 0.68, 15000⟩)) }) := by
  refine ⟨?_, ?_, ?_⟩
  · intro hd hm
    have hlt : ¬ m.nasaData.money < w.cost := not_lt.mpr hm
    have hirr : m.nasaData.irrigate =
        some ({ m.nasaData with money := m.nasaData.money - w.cost,
                                cropHealth := min 100 (m.nasaData.cropHealth + 10) },
              { success := true, message := none, healthGain := some 10 }) := by
      simp [NASAData.irrigate, hw, hlt]
    refine ⟨_, _, hirr, rfl, rfl, ?_⟩
    simp only [onDecisionMade, hd, if_true, hirr, hwk]
    exact checkAndAdvance_sequenced _ _ _ _
  · intro hd
    obtain ⟨hband, hlow, hhigh, -⟩ := skipIrrigation_cases m.nasaData w hw
    by_cases hb : 0.63 ≤ w.moisture ∧ w.moisture ≤ 0.67
    · refine ⟨_, _, Alert.irrigationSkipped, hband hb, rfl, ?_⟩
      simp only [onDecisionMade, if_neg hd, hband hb, hwk, if_true]
      exact checkAndAdvance_sequenced _ _ _ _
    · by_cases hl : w.moisture < 0.65
      · refine ⟨_, _, Alert.irrigationSkippedWarning, hlow hb hl, rfl, ?_⟩
        simp only [onDecisionMade, if_neg hd, hlow hb hl, hwk]
        exact checkAndAdvance_sequenced _ _ _ _
      · refine ⟨_, _, Alert.irrigationSkipped, hhigh hb hl, rfl, ?_⟩
        simp only [onDecisionMade, if_neg hd, hhigh hb hl, hwk, if_true]
        exact checkAndAdvance_sequenced _ _ _ _
  · intro p q p1 q1
    rfl

theorem onDecisionMade_sequence_witness :
    (MainState.new ⟨48, 64⟩ ⟨160, 128⟩).nasaData.getCurrentWeek =
      some (⟨1, "Jan 7", 0.75, 12000⟩ : WeekRecord) ∧
    ∃ n1 r, (MainState.new ⟨48, 64⟩ ⟨160, 128⟩).nasaData.irrigate = some (n1, r) ∧
      r.success = true ∧
      n1.currentWeekIndex = (MainState.new ⟨48, 64⟩ ⟨160, 128⟩).nasaData.currentWeekIndex ∧
      SequencedAfter n1 [Action.irrigate, Action.alert Alert.farmIrrigated]
        (onDecisionMade (MainState.new ⟨48, 64⟩ ⟨160, 128⟩)
          { decision := "YES", week := some ⟨1, "Jan 7", 0.75, 12000⟩ }
          ⟨64, 80⟩ ⟨144, 96⟩) :=
  ⟨rfl, (onDecisionMade_sequence (MainState.new ⟨48, 64⟩ ⟨160, 128⟩)
    { decision := "YES", week := some ⟨1, "Jan 7", 0.75, 12000⟩ }
    ⟨1, "Jan 7", 0.75, 12000⟩ ⟨1, "Jan 7", 0.75, 12000⟩ ⟨64, 80⟩ ⟨144, 96⟩ rfl rfl).1
    rfl (by decide)⟩

/-- C8: when `money` is below the current week's cost, the handler of a YES decision leaves
the campaign state (`money`, `cropHealth`, `weekIndex`) as it was, calls neither
`checkGameOver` nor `advanceWeek`, and calls `spawnDecisionTiles`, which puts up two new
tiles for the same week. -/
theorem onDecisionMade_insufficient_funds (m : MainState) (data : DecisionMade)
    (w : WeekRecord) (yesPos noPos : Vector2)
    (hw : m.nasaData.getCurrentWeek = some w) (hm : m.nasaData.money < w.cost)
    (hd : data.decision = "YES") :
    onDecisionMade m data yesPos noPos =
      { state := { nasaData := m.nasaData,
                   yesTile := some (DecisionTile.new yesPos.x yesPos.y "YES" (some w)),
                   noTile := some (DecisionTile.new noPos.x noPos.y "NO" (some w)) },
        trace := [Action.irrigate, Action.alert Alert.notEnoughMoney,
                  Action.spawnDecisionTiles],
        threw := false } ∧
    Action.checkGameOver ∉ (onDecisionMade m data yesPos noPos).trace ∧
    Action.advanceWeek ∉ (onDecisionMade m data yesPos noPos).trace := by
  have hirr : m.nasaData.irrigate =
      some (m.nasaData,
            { success := false, message := some "Not enough money", healthGain := none }) := by
    simp [NASAData.irrigate, hw, hm]
  have hrun : onDecisionMade m data yesPos noPos =
      { state := { nasaData := m.nasaData,
                   yesTile := some (DecisionTile.new yesPos.x yesPos.y "YES" (some w)),
                   noTile := some (DecisionTile.new noPos.x noPos.y "NO" (some w)) },
        trace := [Action.irrigate, Action.alert Alert.notEnoughMoney,
                  Action.spawnDecisionTiles],
        threw := false } := by
    simp [onDecisionMade, hd, hirr, spawnDecisionTiles, hw]
  rw [hrun]
  exact ⟨rfl, by simp, by simp⟩

theorem onDecisionMade_insufficient_funds_witness :
    (onDecisionMade
        { nasaData := { NASAData.new with money := 5000 }, yesTile := none, noTile := none }
        { decision := "YES", week := some ⟨1, "Jan 7", 0.75, 12000⟩ }
        ⟨64, 80⟩ ⟨144, 96⟩).state.nasaData.money = 5000 ∧
    (onDecisionMade
        { nasaData := { NASAData.new with money := 5000 }, yesTile := none, noTile := none }
        { decision := "YES", week := some ⟨1, "Jan 7", 0.75, 12000⟩ }
        ⟨64, 80⟩ ⟨144, 96⟩).state.yesTile =
      some (DecisionTile.new 64 80 "YES" (some ⟨1, "Jan 7", 0.75, 12000⟩)) :=
  ⟨congrArg (fun r => r.state.nasaData.money)
      (onDecisionMade_insufficient_funds
        { nasaData := { NASAData.new with money := 5000 }, yesTile := none, noTile := none }
        { decision := "YES", week := some ⟨1, "Jan 7", 0.75, 12000⟩ }
        ⟨1, "Jan 7", 0.75, 12000⟩ ⟨64, 80⟩ ⟨144, 96⟩ rfl (by decide) rfl).1,
    congrArg (fun r => r.state.yesTile)
      (onDecisionMade_insufficient_funds
        { nasaData := { NASAData.new with money := 5000 }, yesTile := none, noTile := none }
        { decision := "YES", week := some ⟨1, "Jan 7", 0.75, 12000⟩ }
        ⟨1, "Jan 7", 0.75, 12000⟩ ⟨64, 80⟩ ⟨144, 96⟩ rfl (by decide) rfl).1⟩

/-! ## The week index over sequences of operations -/

theorem checkAndAdvance_state (m : MainState) (first : List Action) (yesPos noPos : Vector2) :
    (checkAndAdvance m first yesPos noPos).state.nasaData = m.nasaData ∨
      (checkAndAdvance m first yesPos noPos).state.nasaData = m.nasaData.advanceWeek.1 := by
  rcases hg : m.nasaData.checkGameOver.gameOver with _ | _
  · exact Or.inr (checkAndAdvance_ongoing m first yesPos noPos hg).choose_spec.2.1
  · obtain ⟨rest, hrun, -, -⟩ := checkAndAdvance_over m first yesPos noPos hg
    rw [hrun]
    exact Or.inl rfl

/-- The campaign state a run of the handler leaves is the one it found, or the one the
decision made of it, or that one advanced by a week. -/
theorem onDecisionMade_state (m : MainState) (data : DecisionMade) (yesPos noPos : Vector2) :
    (onDecisionMade m data yesPos noPos).state.nasaData = m.nasaData ∨
    ∃ n1, ((∃ r, m.nasaData.irrigate = some (n1, r)) ∨
        (∃ r, m.nasaData.skipIrrigation = some (n1, r))) ∧
      ((onDecisionMade m data yesPos noPos).state.nasaData = n1 ∨
        (onDecisionMade m data yesPos noPos).state.nasaData = n1.advanceWeek.1) := by
  unfold onDecisionMade
  by_cases hd : data.decision = "YES"
  · rw [if_pos hd]
    rcases hirr : m.nasaData.irrigate with _ | ⟨n1, r⟩
    · exact Or.inl rfl
    · refine Or.inr ⟨n1, Or.inl ⟨r, rfl⟩, ?_⟩
      dsimp only
      split_ifs
      · exact Or.inl rfl
      · rcases data.week with _ | wk
        · exact Or.inl rfl
        · exact checkAndAdvance_state _ _ _ _
  · rw [if_neg hd]
    rcases hskip : m.nasaData.skipIrrigation with _ | ⟨n1, r⟩
    · exact Or.inl rfl
    · refine Or.inr ⟨n1, Or.inr ⟨r, rfl⟩, ?_⟩
      dsimp only
      rcases data.week with _ | wk
      · exact Or.inl rfl
      · dsimp only
        split_ifs
        · exact checkAndAdvance_state _ _ _ _
        · exact checkAndAdvance_state _ _ _ _

theorem onDecisionMade_index (m : MainState) (data : DecisionMade) (yesPos noPos : Vector2) :
    (onDecisionMade m data yesPos noPos).state.nasaData.weeklyData = m.nasaData.weeklyData ∧
    ((onDecisionMade m data yesPos noPos).state.nasaData.currentWeekIndex =
        m.nasaData.currentWeekIndex ∨
      ((onDecisionMade m data yesPos noPos).state.nasaData.currentWeekIndex =
          m.nasaData.currentWeekIndex + 1 ∧
        m.nasaData.currentWeekIndex < m.nasaData.weeklyData.length)) := by
  rcases onDecisionMade_state m data yesPos noPos with h | ⟨n1, happ, h⟩
  · rw [h]
    exact ⟨rfl, Or.inl rfl⟩
  · have hf : n1.currentWeekIndex = m.nasaData.currentWeekIndex ∧
        n1.weeklyData = m.nasaData.weeklyData ∧
        m.nasaData.currentWeekIndex < m.nasaData.weeklyData.length := by
      rcases happ with ⟨r, hr⟩ | ⟨r, hr⟩
      · exact irrigate_frame _ _ _ hr
      · exact skipIrrigation_frame _ _ _ hr
    rcases h with h | h
    · rw [h]
      exact ⟨hf.2.1, Or.inl hf.1⟩
    · rw [h, advanceWeek_fst]
      exact ⟨hf.2.1, Or.inr ⟨by simp [hf.1], hf.2.2⟩⟩

theorem handleAll_index (events : List (DecisionMade × Vector2 × Vector2)) (m : MainState)
    (hlen : m.nasaData.weeklyData.length = 16) (hi : m.nasaData.currentWeekIndex ≤ 16) :
    (m.handleAll events).nasaData.weeklyData.length = 16 ∧
      m.nasaData.currentWeekIndex ≤ (m.handleAll events).nasaData.currentWeekIndex ∧
      (m.handleAll events).nasaData.currentWeekIndex ≤ 16 := by
  induction events generalizing m with
  | nil => exact ⟨hlen, le_refl _, hi⟩
  | cons e t ih =>
    have hstep : m.handleAll (e :: t) =
        (onDecisionMade m e.1 e.2.1 e.2.2).state.handleAll t := rfl
    obtain ⟨hw, hidx⟩ := onDecisionMade_index m e.1 e.2.1 e.2.2
    have hlen1 : (onDecisionMade m e.1 e.2.1 e.2.2).state.nasaData.weeklyData.length = 16 := by
      rw [hw, hlen]
    have hi1 : (onDecisionMade m e.1 e.2.1 e.2.2).state.nasaData.currentWeekIndex ≤ 16 := by
      rcases hidx with h | ⟨h, hlt⟩
      · rw [h]; exact hi
      · rw [h]; rw [hlen] at hlt; exact hlt
    have hmono : m.nasaData.currentWeekIndex ≤
        (onDecisionMade m e.1 e.2.1 e.2.2).state.nasaData.currentWeekIndex := by
      rcases hidx with h | ⟨h, -⟩ <;> rw [h]
      exact Nat.le_succ _
    obtain ⟨h1, h2, h3⟩ := ih _ hlen1 hi1
    rw [hstep]
    exact ⟨h1, le_trans hmono h2, h3⟩

/-- C10 as stated fails: seventeen calls of `advanceWeek()` on a new `NASAData` leave
`weekIndex` at 17, above the sixteen records. -/
theorem advanceWeek_exceeds_length :
    (NASAData.new.applyOps (List.replicate 17 Op.advanceWeek)).currentWeekIndex = 17 ∧
    ¬ (NASAData.new.applyOps (List.replicate 17 Op.advanceWeek)).currentWeekIndex ≤ 16 := by
  decide

/-- C10, amended: under every sequence of `irrigate`, `skipIrrigation`, `advanceWeek` and
`checkGameOver` on a new `NASAData`, `weekIndex` never decreases and equals the number of
`advanceWeek` calls made so far, so it is at most 16 as long as at most sixteen such calls
were made; and under every sequence of `DECISION_MADE` events handled from the new game,
`weekIndex` never decreases and stays at most 16, because the handler cannot reach
`advanceWeek` once there is no current week. -/
theorem weekIndex_monotone_bounded :
    (∀ (ops : List Op) (op : Op),
      (NASAData.new.applyOps ops).currentWeekIndex ≤
        (NASAData.new.applyOps (ops ++ [op])).currentWeekIndex) ∧
    (∀ ops : List Op,
      (NASAData.new.applyOps ops).currentWeekIndex = ops.count Op.advanceWeek) ∧
    (∀ ops : List Op, ops.count Op.advanceWeek ≤ 16 →
      (NASAData.new.applyOps ops).currentWeekIndex ≤ 16) ∧
    (∀ (p q : Vector2) (events : List (DecisionMade × Vector2 × Vector2))
        (e : DecisionMade × Vector2 × Vector2),
      ((MainState.new p q).handleAll events).nasaData.currentWeekIndex ≤
          ((MainState.new p q).handleAll (events ++ [e])).nasaData.currentWeekIndex ∧
        ((MainState.new p q).handleAll events).nasaData.currentWeekIndex ≤ 16) := by
  have hcount : ∀ ops : List Op,
      (NASAData.new.applyOps ops).currentWeekIndex = ops.count Op.advanceWeek := by
    intro ops
    rw [applyOps_index]
    simp [NASAData.new]
  refine ⟨?_, hcount, ?_, ?_⟩
  · intro ops op
    rw [hcount, hcount, List.count_append]
    exact Nat.le_add_right _ _
  · intro ops h
    rw [hcount]
    exact h
  · intro p q events e
    have hall := handleAll_index events (MainState.new p q) rfl (Nat.zero_le 16)
    refine ⟨?_, hall.2.2⟩
    have hsplit : (MainState.new p q).handleAll (events ++ [e]) =
        ((MainState.new p q).handleAll events).handleAll [e] := by
      simp [MainState.handleAll, List.foldl_append]
    rw [hsplit]
    exact (handleAll_index [e] _ hall.1 hall.2.2).2.1

/-! ## Events after a terminal outcome -/

/-- C9 fails on the code: from the new game, NO decisions in weeks 1 to 11 end in crop death
(`cropHealth` 0, `money` 100000, `weekIndex` 10).  The game-over exit of the handler returns
without destroying the week's tiles, which its other exits do through `spawnDecisionTiles`,
so the YES tile of week 11 is still in the scene and not activated; its `DECISION_MADE` event
is handled like any other and leaves `money` 79000, `cropHealth` 10 and `weekIndex` 11. -/
theorem decision_after_crop_death :
    Action.alert Alert.cropDeath ∈ cropDeathRun.trace ∧
    cropDeathRun.state =
      { nasaData := { currentWeekIndex := 10, cropHealth := 0, money := 100000,
                      weeklyData := weeklyData },
        yesTile := some (DecisionTile.new 48 64 "YES" (some ⟨11, "Mar 18", 0.48, 21000⟩)),
        noTile := some (DecisionTile.new 160 128 "NO" (some ⟨11, "Mar 18", 0.48, 21000⟩)) } ∧
    (onDecisionMade cropDeathRun.state
        (DecisionTile.new 48 64 "YES"
          (some ⟨11, "Mar 18", 0.48, 21000⟩)).onCollideWithHero.2
        ⟨64, 80⟩ ⟨144, 96⟩).state.nasaData =
      { currentWeekIndex := 11, cropHealth := 10, money := 79000,
        weeklyData := weeklyData } := by
  decide!

theorem advanceWeek_gameOver (s : NASAData) (h : s.advanceWeek.2.gameOver = true) :
    s.advanceWeek.1.getCurrentWeek = none := by
  rw [getCurrentWeek_eq_none_iff, advanceWeek_fst]
  simp only [NASAData.advanceWeek] at h
  split_ifs at h with hge
  exact hge

theorem checkAndAdvance_terminal (m : MainState) (first : List Action) (yesPos noPos : Vector2)
    (h1 : Action.alert Alert.cropDeath ∉ first) (h2 : Action.alert Alert.bankruptcy ∉ first)
    (h3 : Action.alert Alert.youWin ∉ first)
    (hterm : (checkAndAdvance m first yesPos noPos).terminal) :
    (Action.alert Alert.youWin ∈ (checkAndAdvance m first yesPos noPos).trace →
      (checkAndAdvance m first yesPos noPos).state.nasaData.getCurrentWeek = none) ∧
    (Action.alert Alert.youWin ∉ (checkAndAdvance m first yesPos noPos).trace →
      (checkAndAdvance m first yesPos noPos).state.nasaData.checkGameOver.gameOver = true) := by
  rcases hg : m.nasaData.checkGameOver.gameOver with _ | _
  · simp only [checkAndAdvance, hg, Bool.false_eq_true, if_false] at hterm ⊢
    split_ifs at hterm ⊢ with hadv
    · refine ⟨fun _ => advanceWeek_gameOver _ hadv, fun hn => absurd ?_ hn⟩
      simp
    · simp [HandlerRun.terminal, h1, h2, h3] at hterm
  · simp only [checkAndAdvance, hg, if_true]
    split_ifs
    · exact ⟨fun hy => absurd hy (by simp [h3]), fun _ => hg⟩
    · exact ⟨fun hy => absurd hy (by simp [h3]), fun _ => hg⟩
    · exact ⟨fun hy => absurd hy (by simp [h3]), fun _ => hg⟩

/-- What a terminal run leaves: after the victory dialog there is no current week; after
the crop-death or the bankruptcy dialog `checkGameOver` reports game over. -/
theorem onDecisionMade_terminal (m : MainState) (data : DecisionMade) (yesPos noPos : Vector2)
    (hterm : (onDecisionMade m data yesPos noPos).terminal) :
    (Action.alert Alert.youWin ∈ (onDecisionMade m data yesPos noPos).trace →
      (onDecisionMade m data yesPos noPos).state.nasaData.getCurrentWeek = none) ∧
    (Action.alert Alert.youWin ∉ (onDecisionMade m data yesPos noPos).trace →
      (onDecisionMade m data yesPos noPos).state.nasaData.checkGameOver.gameOver = true) := by
  unfold onDecisionMade at hterm ⊢
  by_cases hd : data.decision = "YES"
  · rw [if_pos hd] at hterm ⊢
    rcases hirr : m.nasaData.irrigate with _ | ⟨n1, r⟩
    · rw [hirr] at hterm
      simp [HandlerRun.terminal] at hterm
    · rw [hirr] at hterm
      dsimp only at hterm ⊢
      split_ifs at hterm ⊢
      · simp [HandlerRun.terminal] at hterm
      · rcases hwk : data.week with _ | wk
        · rw [hwk] at hterm
          simp [HandlerRun.terminal] at hterm
        · rw [hwk] at hterm
          exact checkAndAdvance_terminal _ _ _ _ (by simp) (by simp) (by simp) hterm
  · rw [if_neg hd] at hterm ⊢
    rcases hskip : m.nasaData.skipIrrigation with _ | ⟨n1, r⟩
    · rw [hskip] at hterm
      simp [HandlerRun.terminal] at hterm
    · rw [hskip] at hterm
      dsimp only at hterm ⊢
      rcases hwk : data.week with _ | wk
      · rw [hwk] at hterm
        simp [HandlerRun.terminal] at hterm
      · rw [hwk] at hterm
        dsimp only at hterm ⊢
        split_ifs at hterm ⊢
        · exact checkAndAdvance_terminal _ _ _ _ (by simp) (by simp) (by simp) hterm
        · exact checkAndAdvance_terminal _ _ _ _ (by simp) (by simp) (by simp) hterm

theorem onDecisionMade_no_week (m : MainState) (data : DecisionMade) (yesPos noPos : Vector2)
    (hw : m.nasaData.getCurrentWeek = none) :
    (onDecisionMade m data yesPos noPos).state = m ∧
      (onDecisionMade m data yesPos noPos).threw = true := by
  have hirr : m.nasaData.irrigate = none := by simp [NASAData.irrigate, hw]
  have hskip : m.nasaData.skipIrrigation = none := by simp [NASAData.skipIrrigation, hw]
  unfold onDecisionMade
  split_ifs
  · rw [hirr]
    exact ⟨rfl, rfl⟩
  · rw [hskip]
    exact ⟨rfl, rfl⟩

theorem minCost_le_current (s : NASAData) (w : WeekRecord) (hw : s.getCurrentWeek = some w) :
    ∃ mn, mathMin ((s.weeklyData.drop s.currentWeekIndex).map fun w => w.cost) = some mn ∧
      mn ≤ w.cost := by
  obtain ⟨hlt, hget⟩ := List.getElem?_eq_some_iff.mp hw
  have hdrop : s.weeklyData.drop s.currentWeekIndex =
      w :: s.weeklyData.drop (s.currentWeekIndex + 1) := by
    rw [← hget]
    exact List.drop_eq_getElem_cons hlt
  obtain ⟨mn, hmn, -, hle⟩ :=
    mathMin_least ((s.weeklyData.drop s.currentWeekIndex).map fun w => w.cost)
      (by rw [hdrop]; simp)
  exact ⟨mn, hmn, hle _ (by rw [hdrop]; simp)⟩

/-- A state that `checkGameOver` reports as over has dead crops or cannot pay the current
week. -/
theorem gameOver_cases (s : NASAData) (w : WeekRecord) (hw : s.getCurrentWeek = some w)
    (hg : s.checkGameOver.gameOver = true) : s.cropHealth ≤ 0 ∨ s.money < w.cost := by
  by_cases hh : s.cropHealth ≤ 0
  · exact Or.inl hh
  · right
    obtain ⟨mn, hmn, hle⟩ := minCost_le_current s w hw
    simp only [NASAData.checkGameOver, if_neg hh, hmn, ltNumber, decide_eq_true_eq] at hg
    split_ifs at hg with hb
    exact lt_of_lt_of_le hb.1 hle

theorem checkAndAdvance_frame (m : MainState) (first : List Action) (yesPos noPos : Vector2) :
    (checkAndAdvance m first yesPos noPos).state.nasaData.cropHealth = m.nasaData.cropHealth ∧
    (m.nasaData.checkGameOver.gameOver = true →
      (checkAndAdvance m first yesPos noPos).state.nasaData = m.nasaData) := by
  constructor
  · rcases checkAndAdvance_state m first yesPos noPos with h | h
    · rw [h]
    · rw [h, advanceWeek_fst]
  · intro hg
    obtain ⟨rest, hrun, -, -⟩ := checkAndAdvance_over m first yesPos noPos hg
    rw [hrun]

/-- The campaign state left by a run that applied the decision and got `n1` from it. -/
theorem onDecisionMade_applied (m : MainState) (data : DecisionMade) (yesPos noPos : Vector2)
    (n1 : NASAData)
    (happ : (data.decision = "YES" ∧ ∃ r, m.nasaData.irrigate = some (n1, r) ∧ r.success = true) ∨
      (data.decision ≠ "YES" ∧ ∃ r, m.nasaData.skipIrrigation = some (n1, r))) :
    (onDecisionMade m data yesPos noPos).state.nasaData.cropHealth = n1.cropHealth ∧
    (n1.checkGameOver.gameOver = true →
      (onDecisionMade m data yesPos noPos).state.nasaData = n1) := by
  unfold onDecisionMade
  rcases happ with ⟨hd, r, hirr, hs⟩ | ⟨hd, r, hskip⟩
  · rw [if_pos hd, hirr]
    simp only [hs, Bool.not_true, Bool.false_eq_true, if_false]
    rcases data.week with _ | wk
    · exact ⟨rfl, fun _ => rfl⟩
    · exact checkAndAdvance_frame _ _ _ _
  · rw [if_neg hd, hskip]
    dsimp only
    rcases data.week with _ | wk
    · exact ⟨rfl, fun _ => rfl⟩
    · dsimp only
      split_ifs
      · exact checkAndAdvance_frame _ _ _ _
      · exact checkAndAdvance_frame _ _ _ _

/-- In a state with a current week that `checkGameOver` reports as over, a further decision
leaves the campaign state as it was exactly when nothing is applied: YES without the money
for it, or a skip that costs no health (moisture at least `0.63`, or `cropHealth` already 0). -/
theorem decision_at_gameOver (m : MainState) (data : DecisionMade) (yesPos noPos : Vector2)
    (w : WeekRecord) (hw : m.nasaData.getCurrentWeek = some w)
    (hg : m.nasaData.checkGameOver.gameOver = true) :
    (onDecisionMade m data yesPos noPos).state.nasaData = m.nasaData ↔
      (data.decision = "YES" ∧ m.nasaData.money < w.cost) ∨
      (data.decision ≠ "YES" ∧ (0.63 ≤ w.moisture ∨ m.nasaData.cropHealth = 0)) := by
  by_cases hd : data.decision = "YES"
  · by_cases hm : m.nasaData.money < w.cost
    · have hirr : m.nasaData.irrigate =
          some (m.nasaData,
            { success := false, message := some "Not enough money", healthGain := none }) := by
        simp [NASAData.irrigate, hw, hm]
      have hst : (onDecisionMade m data yesPos noPos).state.nasaData = m.nasaData := by
        simp [onDecisionMade, hd, hirr, spawnDecisionTiles]
      exact ⟨fun _ => Or.inl ⟨hd, hm⟩, fun _ => hst⟩
    · have hirr : m.nasaData.irrigate =
          some ({ m.nasaData with money := m.nasaData.money - w.cost,
                                  cropHealth := min 100 (m.nasaData.cropHealth + 10) },
                { success := true, message := none, healthGain := some 10 }) := by
        simp [NASAData.irrigate, hw, hm]
      have hch : m.nasaData.cropHealth ≤ 0 := by
        rcases gameOver_cases m.nasaData w hw hg with h | h
        · exact h
        · exact absurd h hm
      have happ := (onDecisionMade_applied m data yesPos noPos _
        (Or.inl ⟨hd, _, hirr, rfl⟩)).1
      constructor
      · intro h
        rw [h] at happ
        have hmin : min 100 (m.nasaData.cropHealth + 10) = m.nasaData.cropHealth + 10 :=
          min_eq_right (by omega)
        simp only [hmin] at happ
        omega
      · rintro (⟨-, h⟩ | ⟨h, -⟩)
        · exact absurd h hm
        · exact absurd hd h
  · obtain ⟨hband, hlow, hhigh, -⟩ := skipIrrigation_cases m.nasaData w hw
    have hsame : m.nasaData.skipIrrigation =
        some (m.nasaData, { healthLoss := 0, adequate := true }) →
        (onDecisionMade m data yesPos noPos).state.nasaData = m.nasaData := fun hs =>
      (onDecisionMade_applied m data yesPos noPos _ (Or.inr ⟨hd, _, hs⟩)).2 hg
    by_cases hb : 0.63 ≤ w.moisture ∧ w.moisture ≤ 0.67
    · exact ⟨fun _ => Or.inr ⟨hd, Or.inl hb.1⟩, fun _ => hsame (hband hb)⟩
    · by_cases hl : w.moisture < 0.65
      · have hnot : ¬ 0.63 ≤ w.moisture := by
          intro h63
          apply hb
          refine ⟨h63, le_of_lt (lt_trans hl ?_)⟩
          norm_num
        by_cases h0 : m.nasaData.cropHealth = 0
        · have hn1 : ({ m.nasaData with cropHealth := max 0 (m.nasaData.cropHealth - 15) } :
              NASAData) = m.nasaData := by
            have hmax : max 0 (m.nasaData.cropHealth - 15) = m.nasaData.cropHealth := by
              rw [h0]; rfl
            rw [hmax]
          have hskip := hlow hb hl
          rw [hn1] at hskip
          exact ⟨fun _ => Or.inr ⟨hd, Or.inr h0⟩,
            fun _ => (onDecisionMade_applied m data yesPos noPos _ (Or.inr ⟨hd, _, hskip⟩)).2 hg⟩
        · have happ := (onDecisionMade_applied m data yesPos noPos _
            (Or.inr ⟨hd, _, hlow hb hl⟩)).1
          constructor
          · intro h
            rw [h] at happ
            simp only at happ
            rcases max_choice 0 (m.nasaData.cropHealth - 15) with hmx | hmx
            · rw [hmx] at happ
              exact absurd happ h0
            · rw [hmx] at happ
              omega
          · rintro (⟨h, -⟩ | ⟨-, h | h⟩)
            · exact absurd h hd
            · exact absurd h hnot
            · exact absurd h h0
      · have h63 : 0.63 ≤ w.moisture := by
          refine le_trans ?_ (not_lt.mp hl)
          norm_num
        exact ⟨fun _ => Or.inr ⟨hd, Or.inl h63⟩, fun _ => hsame (hhigh hb hl)⟩

/-- How far the defect shown by `decision_after_crop_death` reaches.  Let a run of the
handler have ended the session.  If it ended in victory, a later `DECISION_MADE` event
changes nothing: the handler throws before any assignment.  If it ended in crop death or
bankruptcy and a current week exists, a later event is stopped only by the checks of a
running game: `money`, `cropHealth` and `weekIndex` stay unchanged exactly when it is YES
and the money is below the week's cost, or is not YES and the skip costs no health (moisture
at least `0.63`, or `cropHealth` already 0); in every other case the decision is applied to
the finished game. -/
theorem later_decision_after_terminal (m0 : MainState) (d0 : DecisionMade) (p0 q0 : Vector2)
    (hterm : (onDecisionMade m0 d0 p0 q0).terminal)
    (data : DecisionMade) (p q : Vector2) :
    (Action.alert Alert.youWin ∈ (onDecisionMade m0 d0 p0 q0).trace →
      (onDecisionMade (onDecisionMade m0 d0 p0 q0).state data p q).state =
        (onDecisionMade m0 d0 p0 q0).state) ∧
    (∀ w, (onDecisionMade m0 d0 p0 q0).state.nasaData.getCurrentWeek = some w →
      ((onDecisionMade (onDecisionMade m0 d0 p0 q0).state data p q).state.nasaData =
          (onDecisionMade m0 d0 p0 q0).state.nasaData ↔
        (data.decision = "YES" ∧
          (onDecisionMade m0 d0 p0 q0).state.nasaData.money < w.cost) ∨
        (data.decision ≠ "YES" ∧
          (0.63 ≤ w.moisture ∨
            (onDecisionMade m0 d0 p0 q0).state.nasaData.cropHealth = 0)))) := by
  obtain ⟨hwin, hlost⟩ := onDecisionMade_terminal m0 d0 p0 q0 hterm
  refine ⟨fun hy => (onDecisionMade_no_week _ data p q (hwin hy)).1, ?_⟩
  intro w hw
  have hg : (onDecisionMade m0 d0 p0 q0).state.nasaData.checkGameOver.gameOver = true := by
    apply hlost
    intro hy
    rw [hwin hy] at hw
    exact absurd hw (by simp)
  exact decision_at_gameOver _ data p q w hw hg

theorem later_decision_after_terminal_witness :
    cropDeathRun.terminal ∧
    (onDecisionMade cropDeathRun.state
        { decision := "NO", week := some ⟨11, "Mar 18", 0.48, 21000⟩ }
        ⟨64, 80⟩ ⟨144, 96⟩).state.nasaData = cropDeathRun.state.nasaData :=
  ⟨Or.inl (by decide!),
    ((later_decision_after_terminal
        ((MainState.new ⟨48, 64⟩ ⟨160, 128⟩).handleAll (skipWeeks 10))
        { decision := "NO", week := some ⟨11, "Mar 18", 0.48, 21000⟩ } ⟨48, 64⟩ ⟨160, 128⟩
        (Or.inl (by decide!))
        { decision := "NO", week := some ⟨11, "Mar 18", 0.48, 21000⟩ } ⟨64, 80⟩ ⟨144, 96⟩).2
      ⟨11, "Mar 18", 0.48, 21000⟩ (by decide!)).mpr
      (Or.inr ⟨by decide, Or.inr (by decide!)⟩)⟩

/-! ## Money over the operations of a campaign -/

theorem irrigate_money (s s1 : NASAData) (r : IrrigateResult)
    (h : s.irrigate = some (s1, r)) (hm : 0 ≤ s.money) : 0 ≤ s1.money := by
  rcases hw : s.getCurrentWeek with _ | w
  · simp [NASAData.irrigate, hw] at h
  · simp only [NASAData.irrigate, hw] at h
    split_ifs at h with hlt
    · cases h
      exact hm
    · cases h
      exact sub_nonneg.mpr (not_lt.mp hlt)

theorem skipIrrigation_money (s s1 : NASAData) (r : SkipResult)
    (h : s.skipIrrigation = some (s1, r)) : s1.money = s.money := by
  rcases hw : s.getCurrentWeek with _ | w
  · simp [NASAData.skipIrrigation, hw] at h
  · exact ((skipIrrigation_cases s w hw).2.2.2 s1 r h).1

theorem invoke_money (s : NASAData) (m : Method) (h : 0 ≤ s.money) :
    0 ≤ (s.invoke m).money := by
  cases m
  · rcases hi : s.irrigate with _ | ⟨s1, r⟩
    · simpa [NASAData.invoke, NASAData.applyOp, hi] using h
    · simpa [NASAData.invoke, NASAData.applyOp, hi] using irrigate_money s s1 r hi h
  · rcases hk : s.skipIrrigation with _ | ⟨s1, r⟩
    · simpa [NASAData.invoke, NASAData.applyOp, hk] using h
    · have hs := skipIrrigation_money s s1 r hk
      simpa [NASAData.invoke, NASAData.applyOp, hk, hs] using h
  · simpa [NASAData.invoke, NASAData.applyOp, advanceWeek_fst] using h
  · simpa [NASAData.invoke, NASAData.applyOp] using h
  · simp [NASAData.invoke, NASAData.reset]

theorem invokeAll_money (ms : List Method) (s : NASAData) (h : 0 ≤ s.money) :
    0 ≤ (s.invokeAll ms).money := by
  induction ms generalizing s with
  | nil => exact h
  | cons m t ih => exact ih (s.invoke m) (invoke_money s m h)

/-- C11: from any campaign state with `money >= 0`, each of `irrigate`, `skipIrrigation`,
`advanceWeek`, `checkGameOver` and `reset` leaves `money >= 0`, and so does every sequence of
them: `irrigate` subtracts the cost only after it has found `money >= cost`. -/
theorem money_never_negative (s : NASAData) (h : 0 ≤ s.money) :
    (∀ m : Method, 0 ≤ (s.invoke m).money) ∧
    (∀ ms : List Method, 0 ≤ (s.invokeAll ms).money) :=
  ⟨fun m => invoke_money s m h, fun ms => invokeAll_money ms s h⟩

theorem money_never_negative_witness :
    (0 : Int) ≤ NASAData.new.money ∧
    (∀ m : Method, 0 ≤ (NASAData.new.invoke m).money) ∧
    (∀ ms : List Method, 0 ≤ (NASAData.new.invokeAll ms).money) :=
  ⟨by decide, money_never_negative NASAData.new (by decide)⟩

/-! ## Rounding to the nearest double keeps the order -/

theorem pow2_eq (e : Int) : pow2 e = (2 : ℚ) ^ e := by
  unfold pow2
  split_ifs with h
  · obtain ⟨n, rfl⟩ := Int.eq_ofNat_of_zero_le h
    simp
  · obtain ⟨n, rfl⟩ := Int.exists_eq_neg_ofNat (le_of_lt (not_le.mp h))
    simp

theorem pow2_pos (e : Int) : 0 < pow2 e := by
  rw [pow2_eq]
  exact zpow_pos (by norm_num) e

theorem pow2_le (a b : Int) (h : a ≤ b) : pow2 a ≤ pow2 b := by
  rw [pow2_eq, pow2_eq]
  exact zpow_le_zpow_right₀ (by norm_num) h

theorem pow2_add (a b : Int) : pow2 (a + b) = pow2 a * pow2 b := by
  rw [pow2_eq, pow2_eq, pow2_eq]
  exact zpow_add₀ (by norm_num) a b

theorem halvings_spec (fuel n : Nat) (hf : n ≤ fuel) (hn : 1 ≤ n) :
    2 ^ halvings fuel n ≤ n ∧ n < 2 ^ (halvings fuel n + 1) := by
  induction fuel generalizing n with
  | zero => omega
  | succ f ih =>
    by_cases h2 : n < 2
    · have h1 : n = 1 := by omega
      subst h1
      simp [halvings]
    · have hdiv : n / 2 ≤ f := by omega
      have hpos : 1 ≤ n / 2 := by omega
      obtain ⟨hlo, hhi⟩ := ih (n / 2) hdiv hpos
      simp only [halvings, if_neg h2]
      constructor
      · calc 2 ^ (halvings f (n / 2) + 1) = 2 ^ halvings f (n / 2) * 2 := pow_succ _ _
          _ ≤ n / 2 * 2 := Nat.mul_le_mul_right 2 hlo
          _ ≤ n := Nat.div_mul_le_self n 2
      · calc n < (n / 2 + 1) * 2 := by omega
          _ ≤ 2 ^ (halvings f (n / 2) + 1) * 2 := Nat.mul_le_mul_right 2 hhi
          _ = 2 ^ (halvings f (n / 2) + 1 + 1) := (pow_succ _ _).symm

theorem floorLog2_spec (q : ℚ) (hq : 0 < q) :
    pow2 (floorLog2 q) ≤ q ∧ q < pow2 (floorLog2 q + 1) := by
  have hnum : 0 < q.num := Rat.num_pos.mpr hq
  have hn : 1 ≤ q.num.natAbs := Int.natAbs_pos.mpr (ne_of_gt hnum)
  have hd : 1 ≤ q.den := q.den_pos
  obtain ⟨halo, hahi⟩ := halvings_spec q.num.natAbs q.num.natAbs (le_refl _) hn
  obtain ⟨hblo, hbhi⟩ := halvings_spec q.den q.den (le_refl _) hd
  have hqeq : q = (q.num.natAbs : ℚ) / (q.den : ℚ) := by
    have h2 : (q.num.natAbs : ℚ) = (q.num : ℚ) := by
      rw [Nat.cast_natAbs, abs_of_pos hnum]
    rw [h2]
    exact (Rat.num_div_den q).symm
  have hdpos : (0 : ℚ) < (q.den : ℚ) := by exact_mod_cast hd
  have halo' : (2 : ℚ) ^ halvings q.num.natAbs q.num.natAbs ≤ (q.num.natAbs : ℚ) := by
    exact_mod_cast halo
  have hahi' : (q.num.natAbs : ℚ) < (2 : ℚ) ^ (halvings q.num.natAbs q.num.natAbs + 1) := by
    exact_mod_cast hahi
  have hblo' : (2 : ℚ) ^ halvings q.den q.den ≤ (q.den : ℚ) := by
    exact_mod_cast hblo
  have hbhi' : (q.den : ℚ) < (2 : ℚ) ^ (halvings q.den q.den + 1) := by
    exact_mod_cast hbhi
  have hup : q < pow2 ((halvings q.num.natAbs q.num.natAbs : Int) -
      (halvings q.den q.den : Int) + 1) := by
    rw [pow2_eq, show ((halvings q.num.natAbs q.num.natAbs : Int) -
        (halvings q.den q.den : Int) + 1) =
        ((halvings q.num.natAbs q.num.natAbs + 1 : Nat) : Int) -
          ((halvings q.den q.den : Nat) : Int) by push_cast; ring,
      zpow_sub₀ (by norm_num), zpow_natCast, zpow_natCast]
    rw [lt_div_iff₀ (by positivity)]
    calc q * 2 ^ halvings q.den q.den ≤ q * (q.den : ℚ) :=
          mul_le_mul_of_nonneg_left hblo' (le_of_lt hq)
      _ = (q.num.natAbs : ℚ) := by
          nth_rewrite 1 [hqeq]
          field_simp
      _ < _ := hahi'
  have hlow : pow2 ((halvings q.num.natAbs q.num.natAbs : Int) -
      (halvings q.den q.den : Int) - 1) ≤ q := by
    rw [pow2_eq, show ((halvings q.num.natAbs q.num.natAbs : Int) -
        (halvings q.den q.den : Int) - 1) =
        ((halvings q.num.natAbs q.num.natAbs : Nat) : Int) -
          ((halvings q.den q.den + 1 : Nat) : Int) by push_cast; ring,
      zpow_sub₀ (by norm_num), zpow_natCast, zpow_natCast]
    rw [div_le_iff₀ (by positivity)]
    calc (2 : ℚ) ^ halvings q.num.natAbs q.num.natAbs ≤ (q.num.natAbs : ℚ) := halo'
      _ = q * (q.den : ℚ) := by
          nth_rewrite 2 [hqeq]
          field_simp
      _ ≤ q * 2 ^ (halvings q.den q.den + 1) :=
          mul_le_mul_of_nonneg_left (le_of_lt hbhi') (le_of_lt hq)
  unfold floorLog2
  split_ifs with h
  · exact ⟨h, hup⟩
  · refine ⟨hlow, ?_⟩
    rw [sub_add_cancel]
    exact not_le.mp h

theorem floorLog2_mono (a b : ℚ) (ha : 0 < a) (hab : a ≤ b) : floorLog2 a ≤ floorLog2 b := by
  by_contra hlt
  have hlt' : floorLog2 b + 1 ≤ floorLog2 a := by omega
  have h1 := (floorLog2_spec a ha).1
  have h2 := (floorLog2_spec b (lt_of_lt_of_le ha hab)).2
  have h3 := pow2_le _ _ hlt'
  linarith

theorem roundHalfEven_bounds (x : ℚ) : ⌊x⌋ ≤ roundHalfEven x ∧ roundHalfEven x ≤ ⌊x⌋ + 1 := by
  unfold roundHalfEven
  split_ifs <;> constructor <;> omega

theorem roundHalfEven_int (z : Int) : roundHalfEven (z : ℚ) = z := by
  unfold roundHalfEven
  simp

theorem roundHalfEven_mono (x y : ℚ) (h : x ≤ y) : roundHalfEven x ≤ roundHalfEven y := by
  have hfl : ⌊x⌋ ≤ ⌊y⌋ := Int.floor_mono h
  rcases lt_or_eq_of_le hfl with hlt | heq
  · have h1 := (roundHalfEven_bounds x).2
    have h2 := (roundHalfEven_bounds y).1
    omega
  · unfold roundHalfEven
    rw [← heq]
    split_ifs <;> first | omega | (exfalso; linarith)

theorem doubleUlp_pos (q : ℚ) : 0 < doubleUlp q := pow2_pos _

theorem toDouble_nonneg (q : ℚ) (h : 0 ≤ q) : 0 ≤ toDouble q := by
  unfold toDouble
  rw [if_neg (not_lt.mpr h)]
  have hx : (0 : ℚ) ≤ q / doubleUlp q := div_nonneg h (le_of_lt (doubleUlp_pos q))
  have hr : (0 : Int) ≤ roundHalfEven (q / doubleUlp q) := by
    have := roundHalfEven_mono 0 _ hx
    rwa [show roundHalfEven (0 : ℚ) = 0 from roundHalfEven_int 0] at this
  exact mul_nonneg (by exact_mod_cast hr) (le_of_lt (doubleUlp_pos q))

theorem toDouble_neg (q : ℚ) (h : q < 0) : toDouble q = -toDouble (-q) := by
  have hu : doubleUlp (-q) = doubleUlp q := by
    unfold doubleUlp
    rw [abs_neg]
  unfold toDouble
  rw [if_pos h, if_neg (by linarith), hu]

theorem toDouble_mono_pos (a b : ℚ) (ha : 0 < a) (hab : a ≤ b) : toDouble a ≤ toDouble b := by
  have hb : 0 < b := lt_of_lt_of_le ha hab
  have hlog := floorLog2_mono a b ha hab
  have hsa := floorLog2_spec a ha
  have hsb := floorLog2_spec b hb
  unfold toDouble
  rw [if_neg (not_lt.mpr (le_of_lt ha)), if_neg (not_lt.mpr (le_of_lt hb))]
  unfold doubleUlp
  rw [abs_of_pos ha, abs_of_pos hb]
  rcases lt_or_eq_of_le (max_le_max hlog (le_refl (-1022 : Int))) with hlt | heq
  · -- different binades
    have hEb : max (floorLog2 b) (-1022) = floorLog2 b := by
      apply max_eq_left
      have : (-1022 : Int) ≤ max (floorLog2 a) (-1022) := le_max_right _ _
      omega
    have hua := pow2_pos (max (floorLog2 a) (-1022) - 52)
    have hub := pow2_pos (max (floorLog2 b) (-1022) - 52)
    -- the lower double is at most the next power of two
    have h1 : a / pow2 (max (floorLog2 a) (-1022) - 52) ≤ ((2 ^ 53 : Int) : ℚ) := by
      rw [div_le_iff₀ hua]
      have h53 : ((2 ^ 53 : Int) : ℚ) = pow2 53 := by rw [pow2_eq]; norm_num
      rw [h53, ← pow2_add]
      have hle : pow2 (floorLog2 a + 1) ≤ pow2 (53 + (max (floorLog2 a) (-1022) - 52)) := by
        apply pow2_le
        have : floorLog2 a ≤ max (floorLog2 a) (-1022) := le_max_left _ _
        omega
      linarith [hsa.2]
    have h1' : roundHalfEven (a / pow2 (max (floorLog2 a) (-1022) - 52)) ≤ 2 ^ 53 := by
      have := roundHalfEven_mono _ _ h1
      rwa [roundHalfEven_int] at this
    have h2 : ((2 ^ 52 : Int) : ℚ) ≤ b / pow2 (max (floorLog2 b) (-1022) - 52) := by
      rw [le_div_iff₀ hub]
      have h52 : ((2 ^ 52 : Int) : ℚ) = pow2 52 := by rw [pow2_eq]; norm_num
      rw [h52, ← pow2_add, hEb]
      have : (52 : Int) + (floorLog2 b - 52) = floorLog2 b := by ring
      rw [this]
      exact hsb.1
    have h2' : 2 ^ 52 ≤ roundHalfEven (b / pow2 (max (floorLog2 b) (-1022) - 52)) := by
      have := roundHalfEven_mono _ _ h2
      rwa [roundHalfEven_int] at this
    calc (roundHalfEven (a / pow2 (max (floorLog2 a) (-1022) - 52)) : ℚ) *
          pow2 (max (floorLog2 a) (-1022) - 52)
        ≤ ((2 ^ 53 : Int) : ℚ) * pow2 (max (floorLog2 a) (-1022) - 52) :=
          mul_le_mul_of_nonneg_right (by exact_mod_cast h1') (le_of_lt hua)
      _ = pow2 (max (floorLog2 a) (-1022) + 1) := by
          have h53 : ((2 ^ 53 : Int) : ℚ) = pow2 53 := by rw [pow2_eq]; norm_num
          rw [h53, ← pow2_add]
          congr 1
          ring
      _ ≤ pow2 (max (floorLog2 b) (-1022)) := pow2_le _ _ (by omega)
      _ = ((2 ^ 52 : Int) : ℚ) * pow2 (max (floorLog2 b) (-1022) - 52) := by
          have h52 : ((2 ^ 52 : Int) : ℚ) = pow2 52 := by rw [pow2_eq]; norm_num
          rw [h52, ← pow2_add]
          congr 1
          ring
      _ ≤ (roundHalfEven (b / pow2 (max (floorLog2 b) (-1022) - 52)) : ℚ) *
          pow2 (max (floorLog2 b) (-1022) - 52) :=
          mul_le_mul_of_nonneg_right (by exact_mod_cast h2') (le_of_lt hub)
  · -- the same binade
    rw [← heq]
    have hu := pow2_pos (max (floorLog2 a) (-1022) - 52)
    have hdiv : a / pow2 (max (floorLog2 a) (-1022) - 52) ≤
        b / pow2 (max (floorLog2 a) (-1022) - 52) :=
      div_le_div_of_nonneg_right hab (le_of_lt hu)
    have hr := roundHalfEven_mono _ _ hdiv
    exact mul_le_mul_of_nonneg_right (by exact_mod_cast hr) (le_of_lt hu)

theorem toDouble_zero : toDouble 0 = 0 := by
  unfold toDouble
  simp [roundHalfEven]

theorem toDouble_mono_nonneg (a b : ℚ) (ha : 0 ≤ a) (hab : a ≤ b) :
    toDouble a ≤ toDouble b := by
  rcases lt_or_eq_of_le ha with hpos | hzero
  · exact toDouble_mono_pos a b hpos hab
  · rw [← hzero, toDouble_zero]
    exact toDouble_nonneg b (le_trans ha hab)

/-- Rounding to the nearest double keeps the order. -/
theorem toDouble_mono (a b : ℚ) (hab : a ≤ b) : toDouble a ≤ toDouble b := by
  by_cases ha : a < 0
  · by_cases hb : b < 0
    · rw [toDouble_neg a ha, toDouble_neg b hb]
      have := toDouble_mono_nonneg (-b) (-a) (by linarith) (by linarith)
      linarith
    · rw [toDouble_neg a ha]
      have h1 := toDouble_nonneg (-a) (by linarith)
      have h2 := toDouble_nonneg b (not_lt.mp hb)
      linarith
  · exact toDouble_mono_nonneg a b (not_lt.mp ha) hab

/-! ## Crop growth -/

/-- The three ways a step can go: at the last stage; growing; not growing. -/
theorem step_cases (c : Crop) (delta : ℚ) :
    (5 ≤ c.growthStage → c.step delta = ({ c with isHarvestable := true }, [])) ∧
    (c.growthStage < 5 →
      3000 ≤ doubleAdd c.growthTimer
        (doubleMul delta (max 0.5 (min 2.0 (doubleMul c.ndviValue 2)))) →
      c.step delta =
        ({ c with growthTimer := 0, growthStage := c.growthStage + 1 },
          [{ position := c.position, stage := c.growthStage + 1, type := c.cropType,
             ndvi := c.ndviValue }])) ∧
    (c.growthStage < 5 →
      doubleAdd c.growthTimer
        (doubleMul delta (max 0.5 (min 2.0 (doubleMul c.ndviValue 2)))) < 3000 →
      c.step delta =
        ({ c with growthTimer :=
            (doubleAdd c.growthTimer
              (doubleMul delta (max 0.5 (min 2.0 (doubleMul c.ndviValue 2))))) }, [])) := by
  refine ⟨?_, ?_, ?_⟩
  · intro h
    have h1 : c.growthStage ≥ Crop.maxGrowthStage := h
    simp only [Crop.step, if_pos h1]
  · intro h ht
    have h1 : ¬ c.growthStage ≥ Crop.maxGrowthStage := not_le.mpr h
    have h2 : doubleAdd c.growthTimer
        (doubleMul delta (max 0.5 (min 2.0 (doubleMul c.ndviValue 2)))) ≥
        Crop.growthInterval := ht
    have h3 : ¬ c.growthStage + 1 > Crop.maxGrowthStage := by
      simp only [Crop.maxGrowthStage]; omega
    simp only [Crop.step, if_neg h1, if_pos h2, if_neg h3]
  · intro h ht
    have h1 : ¬ c.growthStage ≥ Crop.maxGrowthStage := not_le.mpr h
    have h2 : ¬ doubleAdd c.growthTimer
        (doubleMul delta (max 0.5 (min 2.0 (doubleMul c.ndviValue 2)))) ≥
        Crop.growthInterval := not_le.mpr ht
    simp only [Crop.step, if_neg h1, if_neg h2]

/-- C12: for a crop with `growthStage` in 0..5, any `delta` and any cached `ndviValue`,
`step` does not decrease `growthStage` and leaves it at most 5; at `growthStage` 5 it changes
neither `growthStage` nor `growthTimer` and emits no `CROP_GROWTH` event. -/
theorem step_growthStage (c : Crop) (delta : ℚ) (hs : c.growthStage ≤ 5) :
    c.growthStage ≤ (c.step delta).1.growthStage ∧
    (c.step delta).1.growthStage ≤ 5 ∧
    (c.growthStage = 5 →
      (c.step delta).1.growthStage = 5 ∧
      (c.step delta).1.growthTimer = c.growthTimer ∧
      (c.step delta).2 = []) := by
  obtain ⟨hfull, hgrow, hstay⟩ := step_cases c delta
  by_cases h5 : 5 ≤ c.growthStage
  · rw [hfull h5]
    have : c.growthStage = 5 := le_antisymm hs h5
    exact ⟨le_refl _, hs, fun _ => ⟨this, rfl, rfl⟩⟩
  · have hlt : c.growthStage < 5 := not_le.mp h5
    by_cases ht : 3000 ≤ doubleAdd c.growthTimer
        (doubleMul delta (max 0.5 (min 2.0 (doubleMul c.ndviValue 2))))
    · rw [hgrow hlt ht]
      exact ⟨Nat.le_succ _, hlt, fun h => absurd h (Nat.ne_of_lt hlt)⟩
    · rw [hstay hlt (not_le.mp ht)]
      exact ⟨le_refl _, hs, fun h => absurd h (Nat.ne_of_lt hlt)⟩

theorem step_growthStage_witness :
    ({ Crop.new 32 48 CropType.wheat with growthStage := 5, growthTimer := 1200 } :
        Crop).growthStage ≤ 5 ∧
    (({ Crop.new 32 48 CropType.wheat with growthStage := 5, growthTimer := 1200 } :
        Crop).step 6000).1.growthStage = 5 ∧
    (({ Crop.new 32 48 CropType.wheat with growthStage := 5, growthTimer := 1200 } :
        Crop).step 6000).1.growthTimer = 1200 ∧
    (({ Crop.new 32 48 CropType.wheat with growthStage := 5, growthTimer := 1200 } :
        Crop).step 6000).2 = [] :=
  ⟨by decide,
    (step_growthStage { Crop.new 32 48 CropType.wheat with growthStage := 5, growthTimer := 1200 }
      6000 (by decide)).2.2 rfl⟩

theorem toDouble_fixed :
    toDouble 0.25 = 0.25 ∧ toDouble 0.5 = 0.5 ∧ toDouble 1 = 1 ∧ toDouble 2 = 2 := by
  decide!

theorem ndviMultiplier_eq (v : ℚ) :
    max (0.5 : ℚ) (min 2.0 (doubleMul v 2)) = ndviSpeed v := by
  obtain ⟨h14, h12, h1, h2⟩ := toDouble_fixed
  have hmul : doubleMul v 2 = toDouble (toDouble v * 2) := by
    unfold doubleMul
    rw [h2]
  have h20 : (2.0 : ℚ) = 2 := by norm_num
  unfold ndviSpeed
  split_ifs with hlow hhigh
  · have hv : toDouble v ≤ 0.25 := by
      have := toDouble_mono v 0.25 hlow
      rwa [h14] at this
    have hx : doubleMul v 2 ≤ 0.5 := by
      rw [hmul, ← h12]
      apply toDouble_mono
      norm_num at hv ⊢
      linarith
    rw [min_eq_right (le_trans hx (by norm_num)), max_eq_left hx]
  · have hv : 1 ≤ toDouble v := by
      have := toDouble_mono 1 v hhigh
      rwa [h1] at this
    have hx : 2 ≤ doubleMul v 2 := by
      rw [hmul, ← h2]
      apply toDouble_mono
      rw [h2]
      linarith
    rw [h20, min_eq_left hx, max_eq_right (by norm_num)]
  · have hv1 : 0.25 ≤ toDouble v := by
      have := toDouble_mono 0.25 v (le_of_lt (not_le.mp hlow))
      rwa [h14] at this
    have hv2 : toDouble v ≤ 1 := by
      have := toDouble_mono v 1 (le_of_lt (not_le.mp hhigh))
      rwa [h1] at this
    have hx1 : 0.5 ≤ doubleMul v 2 := by
      rw [hmul, ← h12]
      apply toDouble_mono
      norm_num at hv1 ⊢
      linarith
    have hx2 : doubleMul v 2 ≤ 2 := by
      rw [hmul, ← h2]
      apply toDouble_mono
      rw [h2]
      linarith
    rw [h20, min_eq_right hx2, max_eq_right hx1]

theorem ndviSpeed_pos (v : ℚ) : 0 < ndviSpeed v := by
  rw [← ndviMultiplier_eq]
  exact lt_of_lt_of_le (by norm_num) (le_max_left _ _)

/-- C14: for a crop with `growthStage < 5` and `delta >= 0`, `step` adds
`delta * clamp(2 * ndviValue, 0.5, 2.0)` to `growthTimer`, in double arithmetic (the speed is
0.5 for `ndviValue <= 0.25` and 2 for `ndviValue >= 1.0`, and the amount added is not
negative).  If the new timer is at least 3000, the timer is set to 0, `growthStage` grows by
exactly 1 and one `CROP_GROWTH` event with the new stage, the position, the type and the
cached ndvi is emitted; otherwise the timer keeps the new value, `growthStage` is unchanged
and nothing is emitted. -/
theorem step_growth (c : Crop) (delta : ℚ) (hs : c.growthStage < 5) (hd : 0 ≤ delta) :
    (3000 ≤ doubleAdd c.growthTimer (doubleMul delta (ndviSpeed c.ndviValue)) →
      c.step delta =
        ({ c with growthTimer := 0, growthStage := c.growthStage + 1 },
          [{ position := c.position, stage := c.growthStage + 1, type := c.cropType,
             ndvi := c.ndviValue }])) ∧
    (doubleAdd c.growthTimer (doubleMul delta (ndviSpeed c.ndviValue)) < 3000 →
      c.step delta =
        ({ c with growthTimer :=
            doubleAdd c.growthTimer (doubleMul delta (ndviSpeed c.ndviValue)) }, [])) ∧
    (c.ndviValue ≤ 0.25 → ndviSpeed c.ndviValue = 0.5) ∧
    (1 ≤ c.ndviValue → ndviSpeed c.ndviValue = 2) ∧
    ndviSpeed c.ndviValue = max 0.5 (min 2.0 (doubleMul c.ndviValue 2)) ∧
    0 ≤ doubleMul delta (ndviSpeed c.ndviValue) := by
  obtain ⟨-, hgrow, hstay⟩ := step_cases c delta
  rw [ndviMultiplier_eq] at hgrow hstay
  refine ⟨hgrow hs, hstay hs, ?_, ?_, (ndviMultiplier_eq _).symm, ?_⟩
  · intro h
    simp only [ndviSpeed, if_pos h]
  · intro h
    have h1 : ¬ c.ndviValue ≤ 0.25 := by
      intro h2
      have : c.ndviValue ≤ 1 / 4 := by norm_num at h2; exact h2
      linarith
    simp only [ndviSpeed, if_neg h1, if_pos h]
  · have h1 : 0 ≤ toDouble delta := toDouble_nonneg delta hd
    have h2 : 0 ≤ toDouble (ndviSpeed c.ndviValue) :=
      toDouble_nonneg _ (le_of_lt (ndviSpeed_pos _))
    exact toDouble_nonneg _ (mul_nonneg h1 h2)

theorem step_growth_witness :
    ((Crop.new 32 48 CropType.wheat).step 2).1.growthStage < 5 ∧
    ((Crop.new 32 48 CropType.wheat).step 2).1.step 4998 =
      ({ Crop.new 32 48 CropType.wheat with
          growthTimer := 6597069766655999 / 2199023255552 }, []) ∧
    (6597069766655999 / 2199023255552 : ℚ) < 3000 ∧
    (Crop.new 32 48 CropType.wheat).step 6000 =
      ({ Crop.new 32 48 CropType.wheat with growthTimer := 0, growthStage := 1 },
        [{ position := { x := 32, y := 48 }, stage := 1, type := CropType.wheat,
           ndvi := 0.3 }]) :=
  ⟨by decide!,
    ((step_growth ((Crop.new 32 48 CropType.wheat).step 2).1 4998 (by decide!)
      (by norm_num)).2.1 (by decide!)).trans (by decide!),
    by norm_num,
    (step_growth (Crop.new 32 48 CropType.wheat) 6000 (by decide) (by norm_num)).1
      (by decide!)⟩

/-! ## NDVI updates -/

theorem step_frame (c : Crop) (delta : ℚ) :
    (c.step delta).1.position = c.position ∧ (c.step delta).1.ndviValue = c.ndviValue := by
  simp only [Crop.step]
  split_ifs <;> exact ⟨rfl, rfl⟩

theorem updateNDVI_cases (c : Crop) (data : NdviUpdate) :
    ((data.position.x - c.position.x) ^ 2 + (data.position.y - c.position.y) ^ 2 < 2500 →
      c.updateNDVI data = { c with ndviValue := data.value }) ∧
    (2500 ≤ (data.position.x - c.position.x) ^ 2 + (data.position.y - c.position.y) ^ 2 →
      c.updateNDVI data = c) := by
  constructor
  · intro h
    simp [Crop.updateNDVI, sqrtLt, h]
  · intro h
    have h1 : ¬ (data.position.x - c.position.x) ^ 2 + (data.position.y - c.position.y) ^ 2 <
        2500 := not_lt.mpr h
    simp [Crop.updateNDVI, sqrtLt, h1]

theorem far_crop_keeps_ndvi (ops : List CropOp) (c : Crop)
    (hfar : 2500 ≤ c.position.x ^ 2 + c.position.y ^ 2)
    (hops : ∀ d, CropOp.ndviUpdate d ∈ ops → d.position = { x := 0, y := 0 }) :
    (c.applyOps ops).ndviValue = c.ndviValue := by
  induction ops generalizing c with
  | nil => rfl
  | cons op t ih =>
    have hstep : c.applyOps (op :: t) = (c.applyOp op).applyOps t := rfl
    have hkeep : (c.applyOp op).position = c.position ∧
        (c.applyOp op).ndviValue = c.ndviValue := by
      cases op with
      | step delta => exact step_frame c delta
      | ndviUpdate d =>
        have hd := hops d (List.mem_cons_self _ _)
        have hsame : c.updateNDVI d = c := by
          apply (updateNDVI_cases c d).2
          rw [hd]
          simpa using hfar
        simp only [Crop.applyOp, hsame, and_self]
    rw [hstep, ih (c.applyOp op) (by rw [hkeep.1]; exact hfar)
      (fun d hd => hops d (List.mem_cons_of_mem _ hd)), hkeep.2]

/-- C15: `updateNDVI` stores the broadcast value when the broadcast position is less than 50
units from the crop (squared distance below 2500) and leaves `ndviValue` as it was otherwise.
Every payload of `broadcastNDVI` has position (0, 0), so a crop placed 50 or more units from
the origin keeps its first `ndviValue`, 0.3, through any steps and any such broadcasts. -/
theorem updateNDVI_radius (c : Crop) (data : NdviUpdate) :
    ((data.position.x - c.position.x) ^ 2 + (data.position.y - c.position.y) ^ 2 < 2500 →
      c.updateNDVI data = { c with ndviValue := data.value }) ∧
    (2500 ≤ (data.position.x - c.position.x) ^ 2 + (data.position.y - c.position.y) ^ 2 →
      c.updateNDVI data = c) ∧
    (∀ (sim : NDVISimulator) (random : ℚ) (payload : NdviUpdate),
      sim.broadcastNDVI random = some payload → payload.position = { x := 0, y := 0 }) ∧
    (∀ (x y : Int) (t : CropType) (ops : List CropOp), 2500 ≤ x ^ 2 + y ^ 2 →
      (∀ d, CropOp.ndviUpdate d ∈ ops → d.position = { x := 0, y := 0 }) →
      ((Crop.new x y t).applyOps ops).ndviValue = 0.3) := by
  refine ⟨(updateNDVI_cases c data).1, (updateNDVI_cases c data).2, ?_, ?_⟩
  · intro sim random payload h
    simp only [NDVISimulator.broadcastNDVI] at h
    split at h
    · cases h
      rfl
    · exact absurd h (by simp)
  · intro x y t ops hfar hops
    exact far_crop_keeps_ndvi ops (Crop.new x y t) hfar hops

/-! ## The flag `isHarvestable` -/

theorem updateNDVI_frame (c : Crop) (data : NdviUpdate) :
    (c.updateNDVI data).growthStage = c.growthStage ∧
      (c.updateNDVI data).isHarvestable = c.isHarvestable := by
  simp only [Crop.updateNDVI]
  split_ifs <;> exact ⟨rfl, rfl⟩

theorem applyOp_harvestable (c : Crop) (op : CropOp)
    (h : c.growthStage ≤ 5 ∧ (c.isHarvestable = true → c.growthStage = 5)) :
    (c.applyOp op).growthStage ≤ 5 ∧
      ((c.applyOp op).isHarvestable = true → (c.applyOp op).growthStage = 5) := by
  cases op with
  | step delta =>
    obtain ⟨hfull, hgrow, hstay⟩ := step_cases c delta
    simp only [Crop.applyOp]
    by_cases h5 : 5 ≤ c.growthStage
    · rw [hfull h5]
      exact ⟨h.1, fun _ => le_antisymm h.1 h5⟩
    · have hlt : c.growthStage < 5 := not_le.mp h5
      have hno : c.isHarvestable = true → False := fun hh =>
        absurd (h.2 hh) (Nat.ne_of_lt hlt)
      by_cases ht : 3000 ≤ doubleAdd c.growthTimer
        (doubleMul delta (max 0.5 (min 2.0 (doubleMul c.ndviValue 2))))
      · rw [hgrow hlt ht]
        exact ⟨hlt, fun hh => absurd hh hno⟩
      · rw [hstay hlt (not_le.mp ht)]
        exact ⟨h.1, fun hh => absurd hh hno⟩
  | ndviUpdate data =>
    obtain ⟨hs, hh⟩ := updateNDVI_frame c data
    simp only [Crop.applyOp, hs, hh]
    exact h

theorem applyOps_harvestable (ops : List CropOp) (c : Crop)
    (h : c.growthStage ≤ 5 ∧ (c.isHarvestable = true → c.growthStage = 5)) :
    (c.applyOps ops).growthStage ≤ 5 ∧
      ((c.applyOps ops).isHarvestable = true → (c.applyOps ops).growthStage = 5) := by
  induction ops generalizing c with
  | nil => exact h
  | cons op t ih => exact ih (c.applyOp op) (applyOp_harvestable c op h)

theorem applyOp_ripe (c : Crop) (op : CropOp)
    (h : c.isHarvestable = true ∧ c.growthStage = 5) :
    (c.applyOp op).isHarvestable = true ∧ (c.applyOp op).growthStage = 5 := by
  cases op with
  | step delta =>
    have hstep := (step_cases c delta).1 (le_of_eq h.2.symm)
    have hop : c.applyOp (CropOp.step delta) = (c.step delta).1 := rfl
    rw [hop, hstep]
    exact ⟨rfl, h.2⟩
  | ndviUpdate data =>
    obtain ⟨hs, hh⟩ := updateNDVI_frame c data
    simp only [Crop.applyOp, hs, hh]
    exact h

theorem applyOps_ripe (ops : List CropOp) (c : Crop)
    (h : c.isHarvestable = true ∧ c.growthStage = 5) :
    (c.applyOps ops).isHarvestable = true ∧ (c.applyOps ops).growthStage = 5 := by
  induction ops generalizing c with
  | nil => exact h
  | cons op t ih => exact ih (c.applyOp op) (applyOp_ripe c op h)

/-- C13 fails on the code: five steps of 6000 ms on a new wheat crop (cached ndvi 0.3, so
about 3600 units a step) raise `growthStage` to 5, the fifth from 4 to 5, and `isHarvestable`
is still `false` after it: the growth branch of `step` does not set the flag that the guard
at the top of `step` ties to `growthStage >= maxGrowthStage`. -/
theorem harvestable_lags_growth :
    ((Crop.new 32 48 CropType.wheat).applyOps
        (List.replicate 4 (CropOp.step 6000))).growthStage = 4 ∧
    ((Crop.new 32 48 CropType.wheat).applyOps
        (List.replicate 5 (CropOp.step 6000))).growthStage = 5 ∧
    ((Crop.new 32 48 CropType.wheat).applyOps
        (List.replicate 5 (CropOp.step 6000))).isHarvestable = false ∧
    ¬ (((Crop.new 32 48 CropType.wheat).applyOps
          (List.replicate 5 (CropOp.step 6000))).isHarvestable = true ↔
        5 ≤ ((Crop.new 32 48 CropType.wheat).applyOps
          (List.replicate 5 (CropOp.step 6000))).growthStage) := by
  decide!

/-- How far the defect shown by `harvestable_lags_growth` reaches.  In every state reached
from a new crop by steps and NDVI updates, `growthStage` is at most 5 and `isHarvestable`
implies `growthStage = 5`, so the flag and `growthStage >= 5` agree while `growthStage < 5`;
a step taken at `growthStage` 5 sets the flag, and once set it stays set with `growthStage`
5.  Every step that raises `growthStage` from 4 to 5 leaves the flag `false`. -/
theorem harvestable_after_next_step (x y : Int) (t : CropType) (ops : List CropOp) :
    ((Crop.new x y t).applyOps ops).growthStage ≤ 5 ∧
    (((Crop.new x y t).applyOps ops).isHarvestable = true →
      ((Crop.new x y t).applyOps ops).growthStage = 5) ∧
    (((Crop.new x y t).applyOps ops).growthStage < 5 →
      (((Crop.new x y t).applyOps ops).isHarvestable = true ↔
        5 ≤ ((Crop.new x y t).applyOps ops).growthStage)) ∧
    (∀ delta : ℚ, 5 ≤ ((Crop.new x y t).applyOps ops).growthStage →
      ((((Crop.new x y t).applyOps ops).step delta).1.isHarvestable = true ∧
        (((Crop.new x y t).applyOps ops).step delta).1.growthStage = 5)) ∧
    (((Crop.new x y t).applyOps ops).isHarvestable = true →
      ∀ more : List CropOp,
        ((((Crop.new x y t).applyOps ops).applyOps more).isHarvestable = true ∧
          (((Crop.new x y t).applyOps ops).applyOps more).growthStage = 5)) ∧
    (∀ delta : ℚ, ((Crop.new x y t).applyOps ops).growthStage = 4 →
      (((Crop.new x y t).applyOps ops).step delta).1.growthStage = 5 →
      (((Crop.new x y t).applyOps ops).step delta).1.isHarvestable = false) := by
  have hinv := applyOps_harvestable ops (Crop.new x y t)
    ⟨by simp [Crop.new], by simp [Crop.new]⟩
  refine ⟨hinv.1, hinv.2, ?_, ?_, ?_, ?_⟩
  rotate_right
  · intro delta h4 h5
    have hlt : ((Crop.new x y t).applyOps ops).growthStage < 5 := by omega
    have hflag : ((Crop.new x y t).applyOps ops).isHarvestable = false := by
      rcases hf : ((Crop.new x y t).applyOps ops).isHarvestable with _ | _
      · rfl
      · exact absurd (hinv.2 hf) (by omega)
    obtain ⟨-, hgrow, hstay⟩ := step_cases ((Crop.new x y t).applyOps ops) delta
    by_cases ht : 3000 ≤ doubleAdd ((Crop.new x y t).applyOps ops).growthTimer
        (doubleMul delta (max 0.5 (min 2.0
          (doubleMul ((Crop.new x y t).applyOps ops).ndviValue 2))))
    · rw [hgrow hlt ht]
      exact hflag
    · rw [hstay hlt (not_le.mp ht)]
      exact hflag
  · intro hlt
    constructor
    · intro hh
      exact absurd (hinv.2 hh) (Nat.ne_of_lt hlt)
    · intro h5
      exact absurd h5 (not_le.mpr hlt)
  · intro delta h5
    rw [(step_cases _ delta).1 h5]
    exact ⟨rfl, le_antisymm hinv.1 h5⟩
  · intro hh more
    exact applyOps_ripe more _ ⟨hh, hinv.2 hh⟩

/-! ## The latch of a decision tile -/

theorem onHeroPosition_cases (t : DecisionTile) (pos : HeroPosition) :
    (mathRound pos.x = t.position.x ∧ mathRound pos.y = t.position.y →
      t.hasBeenActivated = false →
      t.onHeroPosition pos =
        ({ t with hasBeenActivated := true },
          [{ decision := t.decision, week := t.weekData }])) ∧
    (¬ (mathRound pos.x = t.position.x ∧ mathRound pos.y = t.position.y) →
      t.onHeroPosition pos = (t, [])) ∧
    (t.hasBeenActivated = true → t.onHeroPosition pos = (t, [])) := by
  refine ⟨?_, ?_, ?_⟩
  · intro hm hf
    simp [DecisionTile.onHeroPosition, DecisionTile.onCollideWithHero, hm.1, hm.2, hf]
  · intro hm
    have hc : ¬ (mathRound pos.x = t.position.x ∧ mathRound pos.y = t.position.y ∧
        (!t.hasBeenActivated) = true) := fun h => hm ⟨h.1, h.2.1⟩
    simp only [DecisionTile.onHeroPosition, if_neg hc]
  · intro hf
    have hc : ¬ (mathRound pos.x = t.position.x ∧ mathRound pos.y = t.position.y ∧
        (!t.hasBeenActivated) = true) := by
      intro h
      rw [hf] at h
      exact absurd h.2.2 (by decide)
    simp only [DecisionTile.onHeroPosition, if_neg hc]

theorem onHeroPositions_activated (ps : List HeroPosition) (t : DecisionTile)
    (h : t.hasBeenActivated = true) : t.onHeroPositions ps = (t, []) := by
  induction ps with
  | nil => rfl
  | cons p ps ih =>
    simp only [DecisionTile.onHeroPositions, (onHeroPosition_cases t p).2.2 h, ih,
      List.append_nil]

theorem onHeroPositions_missed (ps : List HeroPosition) (t : DecisionTile)
    (h : ∀ q ∈ ps, ¬ (mathRound q.x = t.position.x ∧ mathRound q.y = t.position.y)) :
    t.onHeroPositions ps = (t, []) := by
  induction ps with
  | nil => rfl
  | cons p ps ih =>
    have hp := (onHeroPosition_cases t p).2.1 (h p (List.mem_cons_self _ _))
    simp only [DecisionTile.onHeroPositions, hp,
      ih (fun q hq => h q (List.mem_cons_of_mem _ hq)), List.append_nil]

theorem onHeroPositions_append (ps1 ps2 : List HeroPosition) (t : DecisionTile) :
    t.onHeroPositions (ps1 ++ ps2) =
      (((t.onHeroPositions ps1).1.onHeroPositions ps2).1,
        (t.onHeroPositions ps1).2 ++ ((t.onHeroPositions ps1).1.onHeroPositions ps2).2) := by
  induction ps1 generalizing t with
  | nil => simp [DecisionTile.onHeroPositions]
  | cons p ps ih =>
    have hcons : t.onHeroPositions (p :: ps ++ ps2) =
        (((t.onHeroPosition p).1.onHeroPositions (ps ++ ps2)).1,
          (t.onHeroPosition p).2 ++ ((t.onHeroPosition p).1.onHeroPositions (ps ++ ps2)).2) :=
      rfl
    have hhead : t.onHeroPositions (p :: ps) =
        (((t.onHeroPosition p).1.onHeroPositions ps).1,
          (t.onHeroPosition p).2 ++ ((t.onHeroPosition p).1.onHeroPositions ps).2) := rfl
    rw [hcons, hhead, ih]
    simp only [List.append_assoc]

theorem onHeroPositions_length (ps : List HeroPosition) (t : DecisionTile) :
    (t.onHeroPositions ps).2.length ≤ 1 := by
  induction ps generalizing t with
  | nil => simp [DecisionTile.onHeroPositions]
  | cons p ps ih =>
    by_cases hm : mathRound p.x = t.position.x ∧ mathRound p.y = t.position.y
    · rcases hf : t.hasBeenActivated with _ | _
      · have hp := (onHeroPosition_cases t p).1 hm hf
        simp only [DecisionTile.onHeroPositions, hp,
          onHeroPositions_activated ps { t with hasBeenActivated := true } rfl]
        simp
      · have hp := (onHeroPosition_cases t p).2.2 hf
        simp only [DecisionTile.onHeroPositions, hp, List.nil_append]
        exact ih t
    · have hp := (onHeroPosition_cases t p).2.1 hm
      simp only [DecisionTile.onHeroPositions, hp, List.nil_append]
      exact ih t

/-- C16: over any sequence of `HERO_POSITION` broadcasts a tile that has not been activated
emits `DECISION_MADE` at most once.  The first broadcast whose rounded coordinates are the
tile's position sets `hasBeenActivated` and emits `{ decision, week }`; the broadcasts after
it, those at the tile's position included, emit nothing; and once `hasBeenActivated` is set
it stays set. -/
theorem decision_made_at_most_once (t : DecisionTile) (h : t.hasBeenActivated = false) :
    (∀ ps : List HeroPosition, (t.onHeroPositions ps).2.length ≤ 1) ∧
    (∀ (ps1 : List HeroPosition) (p : HeroPosition) (ps2 : List HeroPosition),
      (∀ q ∈ ps1, ¬ (mathRound q.x = t.position.x ∧ mathRound q.y = t.position.y)) →
      (mathRound p.x = t.position.x ∧ mathRound p.y = t.position.y) →
      t.onHeroPositions (ps1 ++ p :: ps2) =
        ({ t with hasBeenActivated := true },
          [{ decision := t.decision, week := t.weekData }])) ∧
    (∀ ps : List HeroPosition,
      (∀ q ∈ ps, ¬ (mathRound q.x = t.position.x ∧ mathRound q.y = t.position.y)) →
      t.onHeroPositions ps = (t, [])) ∧
    (∀ ps1 ps2 : List HeroPosition, (t.onHeroPositions ps1).1.hasBeenActivated = true →
      (t.onHeroPositions (ps1 ++ ps2)).1.hasBeenActivated = true ∧
      (t.onHeroPositions (ps1 ++ ps2)).2 = (t.onHeroPositions ps1).2) := by
  refine ⟨fun ps => onHeroPositions_length ps t, ?_, fun ps hps => onHeroPositions_missed ps t hps,
    ?_⟩
  · intro ps1 p ps2 hmiss hhit
    have hp := (onHeroPosition_cases t p).1 hhit h
    rw [onHeroPositions_append, onHeroPositions_missed ps1 t hmiss]
    simp only [DecisionTile.onHeroPositions, hp,
      onHeroPositions_activated ps2 { t with hasBeenActivated := true } rfl]
    simp
  · intro ps1 ps2 hact
    rw [onHeroPositions_append, onHeroPositions_activated ps2 _ hact]
    exact ⟨hact, by simp⟩

theorem decision_made_at_most_once_witness :
    (DecisionTile.new 48 64 "YES" (some ⟨1, "Jan 7", 0.75, 12000⟩)).hasBeenActivated = false ∧
    (DecisionTile.new 48 64 "YES" (some ⟨1, "Jan 7", 0.75, 12000⟩)).onHeroPositions
        ([⟨40, 64⟩] ++ ⟨48, 64⟩ :: [⟨48, 64⟩, ⟨48.3, 63.6⟩]) =
      ({ DecisionTile.new 48 64 "YES" (some ⟨1, "Jan 7", 0.75, 12000⟩) with
          hasBeenActivated := true },
        [{ decision := "YES", week := some ⟨1, "Jan 7", 0.75, 12000⟩ }]) :=
  ⟨rfl,
    (decision_made_at_most_once (DecisionTile.new 48 64 "YES" (some ⟨1, "Jan 7", 0.75, 12000⟩))
      rfl).2.1 [⟨40, 64⟩] ⟨48, 64⟩ [⟨48, 64⟩, ⟨48.3, 63.6⟩] (by decide!) (by decide!)⟩

/-! ## Setting the condition of the simulator -/

/-- C17 fails on the code for the names `conditions` inherits from `Object.prototype`:
`setCondition("constructor")` and `setCondition("toString")` find a truthy value and assign
the name to `currentCondition`, after which `broadcastNDVI` has no number to send.  For the
four own names the condition is set, and for every other name that is not inherited (the
empty string among them) the call changes nothing. -/
theorem setCondition_inherited_name :
    (∀ sim : NDVISimulator, (sim.setCondition "constructor").currentCondition = "constructor") ∧
    (∀ sim : NDVISimulator, (sim.setCondition "toString").currentCondition = "toString") ∧
    NDVISimulator.new.setCondition "constructor" ≠ NDVISimulator.new ∧
    (∀ random : ℚ,
      (NDVISimulator.new.setCondition "constructor").broadcastNDVI random = none) ∧
    (∀ sim : NDVISimulator, sim.setCondition "" = sim) ∧
    (∀ (sim : NDVISimulator) (name : String),
      name ∈ ["optimal", "good", "stressed", "poor"] →
      (sim.setCondition name).currentCondition = name) ∧
    (∀ (sim : NDVISimulator) (name : String),
      name ∉ ["optimal", "good", "stressed", "poor"] → name ≠ "__proto__" →
      name ∉ objectPrototypeMethods → sim.setCondition name = sim) := by
  refine ⟨?_, ?_, ?_, ?_, ?_, ?_, ?_⟩
  · intro sim
    rfl
  · intro sim
    rfl
  · decide
  · intro random
    rfl
  · intro sim
    rfl
  · intro sim name hname
    simp only [List.mem_cons, List.mem_singleton, List.not_mem_nil, or_false] at hname
    rcases hname with rfl | rfl | rfl | rfl
    · have ht : (NDVISimulator.conditions "optimal").truthy = true := by decide!
      simp only [NDVISimulator.setCondition, ht, if_true]
    · have ht : (NDVISimulator.conditions "good").truthy = true := by decide!
      simp only [NDVISimulator.setCondition, ht, if_true]
    · have ht : (NDVISimulator.conditions "stressed").truthy = true := by decide!
      simp only [NDVISimulator.setCondition, ht, if_true]
    · have ht : (NDVISimulator.conditions "poor").truthy = true := by decide!
      simp only [NDVISimulator.setCondition, ht, if_true]
  · intro sim name hown hproto hinh
    simp only [List.mem_cons, List.mem_singleton, List.not_mem_nil, or_false, not_or] at hown
    obtain ⟨h1, h2, h3, h4⟩ := hown
    have hc : NDVISimulator.conditions name = JsValue.undefined := by
      simp only [NDVISimulator.conditions, if_neg h1, if_neg h2, if_neg h3, if_neg h4,
        if_neg hproto, if_neg hinh]
    simp only [NDVISimulator.setCondition, hc, JsValue.truthy, Bool.false_eq_true, if_false]

/-! ## Winning and losing the campaign -/

/-- C18: played from the new game through the tiles and the handler, the campaign can be won:
irrigating only in weeks 6, 10 and 13 gives sixteen runs, the last with the victory dialog,
`cropHealth` 40 and `money` 50500.  YES every week ends in bankruptcy at the sixth decision
(week 6 still current, `money` 4000) and NO every week ends in crop death at the eleventh
(week 11 still current, `cropHealth` 0). -/
theorem campaign_winnable_not_constantly :
    (∃ ds : List String, ds.length = 16 ∧ (∀ d ∈ ds, d = "YES" ∨ d = "NO") ∧
      ((MainState.new ⟨48, 64⟩ ⟨160, 128⟩).play ⟨48, 64⟩ ⟨160, 128⟩ ds).length = 16 ∧
      (((MainState.new ⟨48, 64⟩ ⟨160, 128⟩).play ⟨48, 64⟩ ⟨160, 128⟩ ds).map
        fun r => r.trace.getLast?).getLast? = some (some (Action.alert Alert.youWin))) ∧
    ((MainState.new ⟨48, 64⟩ ⟨160, 128⟩).play ⟨48, 64⟩ ⟨160, 128⟩
        ["NO", "NO", "NO", "NO", "NO", "YES", "NO", "NO", "NO", "YES", "NO", "NO", "YES",
         "NO", "NO", "NO"]).map
        (fun r => (r.trace.getLast?, r.state.nasaData.currentWeekIndex,
          r.state.nasaData.cropHealth, r.state.nasaData.money)) =
      [(some Action.spawnDecisionTiles, 1, 100, 100000),
       (some Action.spawnDecisionTiles, 2, 100, 100000),
       (some Action.spawnDecisionTiles, 3, 85, 100000),
       (some Action.spawnDecisionTiles, 4, 70, 100000),
       (some Action.spawnDecisionTiles, 5, 70, 100000),
       (some Action.spawnDecisionTiles, 6, 80, 84000),
       (some Action.spawnDecisionTiles, 7, 65, 84000),
       (some Action.spawnDecisionTiles, 8, 50, 84000),
       (some Action.spawnDecisionTiles, 9, 50, 84000),
       (some Action.spawnDecisionTiles, 10, 60, 67000),
       (some Action.spawnDecisionTiles, 11, 45, 67000),
       (some Action.spawnDecisionTiles, 12, 45, 67000),
       (some Action.spawnDecisionTiles, 13, 55, 50500),
       (some Action.spawnDecisionTiles, 14, 40, 50500),
       (some Action.spawnDecisionTiles, 15, 40, 50500),
       (some (Action.alert Alert.youWin), 16, 40, 50500)] ∧
    ((MainState.new ⟨48, 64⟩ ⟨160, 128⟩).play ⟨48, 64⟩ ⟨160, 128⟩
        (List.replicate 16 "YES")).map
        (fun r => (r.trace.getLast?, r.state.nasaData.currentWeekIndex,
          r.state.nasaData.cropHealth, r.state.nasaData.money)) =
      [(some Action.spawnDecisionTiles, 1, 100, 88000),
       (some Action.spawnDecisionTiles, 2, 100, 73000),
       (some Action.spawnDecisionTiles, 3, 100, 55000),
       (some Action.spawnDecisionTiles, 4, 100, 33000),
       (some Action.spawnDecisionTiles, 5, 100, 20000),
       (some (Action.alert Alert.bankruptcy), 5, 100, 4000)] ∧
    ((MainState.new ⟨48, 64⟩ ⟨160, 128⟩).play ⟨48, 64⟩ ⟨160, 128⟩
        (List.replicate 16 "NO")).map
        (fun r => (r.trace.getLast?, r.state.nasaData.currentWeekIndex,
          r.state.nasaData.cropHealth, r.state.nasaData.money)) =
      [(some Action.spawnDecisionTiles, 1, 100, 100000),
       (some Action.spawnDecisionTiles, 2, 100, 100000),
       (some Action.spawnDecisionTiles, 3, 85, 100000),
       (some Action.spawnDecisionTiles, 4, 70, 100000),
       (some Action.spawnDecisionTiles, 5, 70, 100000),
       (some Action.spawnDecisionTiles, 6, 55, 100000),
       (some Action.spawnDecisionTiles, 7, 40, 100000),
       (some Action.spawnDecisionTiles, 8, 25, 100000),
       (some Action.spawnDecisionTiles, 9, 25, 100000),
       (some Action.spawnDecisionTiles, 10, 10, 100000),
       (some (Action.alert Alert.cropDeath), 10, 0, 100000)] := by
  refine ⟨⟨["NO", "NO", "NO", "NO", "NO", "YES", "NO", "NO", "NO", "YES", "NO", "NO", "YES",
    "NO", "NO", "NO"], by decide, by decide, by decide!, by decide!⟩, by decide!, by decide!,
    by decide!⟩

end SpaceApp
